import Mathlib

/-!
# cityvoice: the grid agent of `ai_agent.cpp`

A shallow embedding of the single source file `src/ai_agent.cpp`: the class
`Environment` (a character grid with the stored agent and goal coordinates), the
class `Agent` (perceive, decide, act) and the driver loop of `main`.

Modelling decisions.

* `std::vector<std::vector<char>>` is a `List (List Char)`.  `operator[]` with an
  index outside the vector is undefined behaviour in C++; here such a read or
  write yields `none`, and every function that performs one returns an `Option`.
* `int` is `Int`.  Every `+ 1` / `- 1` in the source is guarded by a strict
  comparison with another `int` (`goalX > currentX` before `currentX + 1`, and so
  on), so no arithmetic in the program can overflow and the unbounded integers
  agree with the machine ones.  In `isValid` the comparison `x >= grid.size()`
  converts `x` to an unsigned type, but it is only evaluated after `x < 0` has been
  found false, so the conversion keeps the value.
* `Agent agent;` in `main` leaves the six fields of the agent indeterminate, and the
  loop condition reads four of them before the first `perceive`.  The initial
  agent is therefore a parameter of the driver loop.  In the same way the
  constructor of `Environment` assigns the stored coordinates only inside its scan,
  so their values before the scan are parameters of `Environment.init`.
* `print` and the 200 ms sleep do not touch the state and are left out; the final
  message is the string returned by `finalMessage`.
-/

namespace CityVoice

/-- The grid: a vector of rows of characters. -/
abbrev Grid := List (List Char)

/-- The read `grid[x][y]`; `none` when an index is outside its vector. -/
def readCell (g : Grid) (x y : Int) : Option Char :=
  if x < 0 ∨ y < 0 then none
  else
    match g[x.toNat]? with
    | none => none
    | some row => row[y.toNat]?

/-- The write `grid[x][y] = ch`; `none` when an index is outside its vector. -/
def writeCell (g : Grid) (x y : Int) (ch : Char) : Option Grid :=
  if x < 0 ∨ y < 0 then none
  else
    match g[x.toNat]? with
    | none => none
    | some row =>
      if y.toNat < row.length then some (g.set x.toNat (row.set y.toNat ch)) else none

/-- The class `Environment`: the grid and the stored agent and goal coordinates. -/
structure Environment where
  grid : Grid
  agentX : Int
  agentY : Int
  goalX : Int
  goalY : Int
  deriving DecidableEq, Repr

/-- The literal layout of the constructor (source lines 10-18). -/
def layout : Grid :=
  [ ['#', '#', '#', '#', '#', '#', '#', '#', '#', '#'],
    ['#', 'A', ' ', ' ', '#', ' ', ' ', ' ', ' ', '#'],
    ['#', ' ', '#', ' ', '#', ' ', '#', '#', ' ', '#'],
    ['#', ' ', '#', ' ', ' ', ' ', ' ', ' ', ' ', '#'],
    ['#', ' ', '#', '#', '#', '#', ' ', '#', 'G', '#'],
    ['#', ' ', ' ', ' ', ' ', '#', ' ', ' ', ' ', '#'],
    ['#', '#', '#', '#', '#', '#', '#', '#', '#', '#'] ]

/-- The inner loop of the constructor's scan over the cells `j, j+1, ...` of row `i`. -/
def scanRow (i : Nat) : List Char → Nat → Environment → Environment
  | [], _, env => env
  | ch :: rest, j, env =>
    scanRow i rest (j + 1)
      (if ch = 'A' then { env with agentX := i, agentY := j }
       else if ch = 'G' then { env with goalX := i, goalY := j }
       else env)

/-- The outer loop of the constructor's scan over the rows `i, i+1, ...`. -/
def scanRows : List (List Char) → Nat → Environment → Environment
  | [], _, env => env
  | row :: rest, i, env => scanRows rest (i + 1) (scanRow i row 0 env)

/-- The constructor run on a grid `g`; `ax ay gx gy` are the values the four
coordinate fields hold before the scan. -/
def Environment.ofGrid (g : Grid) (ax ay gx gy : Int) : Environment :=
  scanRows g 0 { grid := g, agentX := ax, agentY := ay, goalX := gx, goalY := gy }

/-- The constructor `Environment::Environment()` on the fixed layout. -/
def Environment.init (ax ay gx gy : Int) : Environment :=
  Environment.ofGrid layout ax ay gx gy

/-- The method `Environment::isValid` (source lines 52-57).  The four tests of the
condition are evaluated left to right with short circuit, so `grid[0]` is only
touched once `0 <= x < grid.size()` is known. -/
def isValid (env : Environment) (x y : Int) : Option Bool :=
  if x < 0 then some false
  else if x ≥ (env.grid.length : Int) then some false
  else if y < 0 then some false
  else
    match env.grid[0]? with
    | none => none
    | some row0 =>
      if y ≥ (row0.length : Int) then some false
      else
        match readCell env.grid x y with
        | none => none
        | some ch => some (ch != '#')

/-- The method `Environment::updateAgentPosition` (source lines 60-67). -/
def updateAgentPosition (env : Environment) (oldX oldY newX newY : Int) :
    Option Environment :=
  match isValid env newX newY with
  | none => none
  | some false => some env
  | some true =>
    match writeCell env.grid oldX oldY ' ' with
    | none => none
    | some g1 =>
      match writeCell g1 newX newY 'A' with
      | none => none
      | some g2 => some { env with grid := g2, agentX := newX, agentY := newY }

/-- The class `Agent`: the perceived current and goal positions and the planned move. -/
structure Agent where
  currentX : Int
  currentY : Int
  goalX : Int
  goalY : Int
  nextX : Int
  nextY : Int
  deriving DecidableEq, Repr

/-- The method `Agent::perceive` (source lines 86-91). -/
def perceive (a : Agent) (env : Environment) : Agent :=
  { a with currentX := env.agentX, currentY := env.agentY,
           goalX := env.goalX, goalY := env.goalY }

/-- The method `Agent::decide` (source lines 95-110). -/
def decide (a : Agent) : Agent :=
  let a := { a with nextX := a.currentX, nextY := a.currentY }
  if a.goalX > a.currentX then { a with nextX := a.currentX + 1 }
  else if a.goalX < a.currentX then { a with nextX := a.currentX - 1 }
  else if a.goalY > a.currentY then { a with nextY := a.currentY + 1 }
  else if a.goalY < a.currentY then { a with nextY := a.currentY - 1 }
  else a

/-- The guard `cond && env.isValid(x, y)`: `isValid` is evaluated only when `cond`
holds. -/
def guardValid (cond : Bool) (env : Environment) (x y : Int) : Option Bool :=
  if cond then isValid env x y else some false

/-- The method `Agent::act` (source lines 113-129). -/
def act (a : Agent) (env : Environment) : Option Environment :=
  match isValid env a.nextX a.nextY with
  | none => none
  | some true => updateAgentPosition env a.currentX a.currentY a.nextX a.nextY
  | some false =>
    match guardValid (a.goalY > a.currentY) env a.currentX (a.currentY + 1) with
    | none => none
    | some true =>
      updateAgentPosition env a.currentX a.currentY a.currentX (a.currentY + 1)
    | some false =>
      match guardValid (a.goalY < a.currentY) env a.currentX (a.currentY - 1) with
      | none => none
      | some true =>
        updateAgentPosition env a.currentX a.currentY a.currentX (a.currentY - 1)
      | some false =>
        match guardValid (a.goalX > a.currentX) env (a.currentX + 1) a.currentY with
        | none => none
        | some true =>
          updateAgentPosition env a.currentX a.currentY (a.currentX + 1) a.currentY
        | some false =>
          match guardValid (a.goalX < a.currentX) env (a.currentX - 1) a.currentY with
          | none => none
          | some true =>
            updateAgentPosition env a.currentX a.currentY (a.currentX - 1) a.currentY
          | some false => some env

/-- The method `Agent::hasReachedGoal` (source lines 132-134). -/
def hasReachedGoal (a : Agent) : Bool :=
  a.currentX == a.goalX && a.currentY == a.goalY

/-- One tick of the driver loop, source lines 159-161: perceive, decide, act. -/
def tick (a : Agent) (env : Environment) : Option (Agent × Environment) :=
  let a1 := decide (perceive a env)
  match act a1 env with
  | none => none
  | some env1 => some (a1, env1)

/-- The state of `main` when the loop is left. -/
structure Outcome where
  steps : Nat
  agent : Agent
  env : Environment
  deriving DecidableEq, Repr

/-- The `while (!agent.hasReachedGoal() && steps < maxSteps)` loop of `main`
(source lines 151-168).  The first argument is `maxSteps - steps`, the number of
ticks still allowed, so the loop is total. -/
def runLoop : Nat → Nat → Agent → Environment → Option Outcome
  | 0, steps, a, env => some { steps := steps, agent := a, env := env }
  | remaining + 1, steps, a, env =>
    if hasReachedGoal a then some { steps := steps, agent := a, env := env }
    else
      match tick a env with
      | none => none
      | some (a1, env1) => runLoop remaining (steps + 1) a1 env1

/-- The constant `maxSteps` of `main`. -/
def maxSteps : Nat := 100

/-- The driver loop on a given world, from `steps = 0`, with initial agent `a0`. -/
def runFrom (a0 : Agent) (env : Environment) : Option Outcome :=
  runLoop maxSteps 0 a0 env

/-- The message printed after the loop (source lines 172-176). -/
def finalMessage (o : Outcome) : String :=
  if hasReachedGoal o.agent then "Goal reached in " ++ toString o.steps ++ " steps!"
  else "Agent could not reach the goal."

/-- The function `main` up to its final message: the constructor, then the loop.
`a0` is the indeterminate initial agent and `ax ay gx gy` the indeterminate
values of the world's coordinate fields before the constructor's scan. -/
def main (a0 : Agent) (ax ay gx gy : Int) : Option Outcome :=
  runFrom a0 (Environment.init ax ay gx gy)

/-- The grid is rectangular: `R` rows, each of `C` columns. -/
def Rect (g : Grid) (R C : Nat) : Prop :=
  g.length = R ∧ ∀ row ∈ g, row.length = C

/-- The number of cells of the grid that hold the character `ch`. -/
def countMarker (g : Grid) (ch : Char) : Nat :=
  (g.map (fun row => row.count ch)).sum

/-- The position `(x, y)` is outside the grid or holds a wall. -/
def Blocked (g : Grid) (x y : Int) : Prop :=
  readCell g x y = none ∨ readCell g x y = some '#'

/-- The call `act` moves the agent to `(x, y)`: it is the call
`updateAgentPosition(current, (x, y))`, it returns, and in the world it returns the
stored agent coordinates are `(x, y)` and that cell holds the agent marker. -/
def MovesTo (a : Agent) (env : Environment) (x y : Int) : Prop :=
  act a env = updateAgentPosition env a.currentX a.currentY x y ∧
    ∃ env1, act a env = some env1 ∧ env1.agentX = x ∧ env1.agentY = y ∧
      readCell env1.grid x y = some 'A'

instance instDecidableRect (g : Grid) (R C : Nat) : Decidable (Rect g R C) := by
  unfold Rect; infer_instance

instance instDecidableBlocked (g : Grid) (x y : Int) : Decidable (Blocked g x y) := by
  unfold Blocked; infer_instance

/-- The world built by the constructor, the fields being zero before the scan. -/
def world0 : Environment := Environment.init 0 0 0 0

/-- A 3 by 5 world whose agent at `(1, 1)` is enclosed by walls, the goal at `(1, 3)`. -/
def stallWorld : Environment :=
  { grid := [ ['#', '#', '#', '#', '#'],
              ['#', 'A', '#', 'G', '#'],
              ['#', '#', '#', '#', '#'] ],
    agentX := 1, agentY := 1, goalX := 1, goalY := 3 }

/-- A 3 by 4 world whose agent at `(1, 1)` stands next to the goal at `(1, 2)`. -/
def adjacentWorld : Environment :=
  { grid := [ ['#', '#', '#', '#'],
              ['#', 'A', 'G', '#'],
              ['#', '#', '#', '#'] ],
    agentX := 1, agentY := 1, goalX := 1, goalY := 2 }

/-- The outcome of the run on the fixed layout: 100 steps, the agent perceived and
stored at `(4, 1)` with `(4, 2)` planned, its marker moved down the first column. -/
def stalledOutcome : Outcome :=
  { steps := 100,
    agent := { currentX := 4, currentY := 1, goalX := 4, goalY := 8, nextX := 4, nextY := 2 },
    env :=
      { grid :=
          [ ['#', '#', '#', '#', '#', '#', '#', '#', '#', '#'],
            ['#', ' ', ' ', ' ', '#', ' ', ' ', ' ', ' ', '#'],
            ['#', ' ', '#', ' ', '#', ' ', '#', '#', ' ', '#'],
            ['#', ' ', '#', ' ', ' ', ' ', ' ', ' ', ' ', '#'],
            ['#', 'A', '#', '#', '#', '#', ' ', '#', 'G', '#'],
            ['#', ' ', ' ', ' ', ' ', '#', ' ', ' ', ' ', '#'],
            ['#', '#', '#', '#', '#', '#', '#', '#', '#', '#'] ],
        agentX := 4, agentY := 1, goalX := 4, goalY := 8 } }

/-- An agent whose six fields are all zero, as in zero-filled memory. -/
def zeroAgent : Agent :=
  { currentX := 0, currentY := 0, goalX := 0, goalY := 0, nextX := 0, nextY := 0 }

/-- An agent whose perceived fields do not satisfy `hasReachedGoal`. -/
def freshAgent : Agent :=
  { currentX := 0, currentY := 0, goalX := 1, goalY := 1, nextX := 0, nextY := 0 }

/-- The ticks of the driver loop without its exit test: `n` times perceive, decide,
act. -/
def iterTick : Nat → Agent → Environment → Option (Agent × Environment)
  | 0, a, env => some (a, env)
  | n + 1, a, env =>
    match tick a env with
    | none => none
    | some (a1, env1) => iterTick n a1 env1

/-- The stored agent coordinates equal the stored goal coordinates. -/
def onGoal (env : Environment) : Bool :=
  env.agentX == env.goalX && env.agentY == env.goalY

/-- Whether the agent stands on the goal after `n` ticks; `none` if a tick made an
out-of-range access. -/
def onGoalAfter (n : Nat) (a : Agent) (env : Environment) : Option Bool :=
  (iterTick n a env).map (fun p => onGoal p.2)

/-- The Manhattan distance `|agentRow - goalRow| + |agentCol - goalCol|`. -/
def manhattan (env : Environment) : Nat :=
  (env.agentX - env.goalX).natAbs + (env.agentY - env.goalY).natAbs

/-- The position `(x, y)` is one step from the stored agent position toward the goal on
one axis, or it is the agent position itself and the agent is on the goal. -/
def Toward (env : Environment) (x y : Int) : Prop :=
  (x = env.agentX + 1 ∧ y = env.agentY ∧ env.goalX > env.agentX) ∨
  (x = env.agentX - 1 ∧ y = env.agentY ∧ env.goalX < env.agentX) ∨
  (x = env.agentX ∧ y = env.agentY + 1 ∧ env.goalY > env.agentY) ∨
  (x = env.agentX ∧ y = env.agentY - 1 ∧ env.goalY < env.agentY) ∨
  (x = env.agentX ∧ y = env.agentY ∧ env.goalX = env.agentX ∧ env.goalY = env.agentY)

/-- The simpler policy, in the words of the specification: try the candidate of
`decide`, else try one column step toward the goal, else stay. -/
def actColumnPolicy (a : Agent) (env : Environment) : Option Environment :=
  match isValid env a.nextX a.nextY with
  | none => none
  | some true => updateAgentPosition env a.currentX a.currentY a.nextX a.nextY
  | some false =>
    match guardValid (a.goalY > a.currentY) env a.currentX (a.currentY + 1) with
    | none => none
    | some true =>
      updateAgentPosition env a.currentX a.currentY a.currentX (a.currentY + 1)
    | some false =>
      match guardValid (a.goalY < a.currentY) env a.currentX (a.currentY - 1) with
      | none => none
      | some true =>
        updateAgentPosition env a.currentX a.currentY a.currentX (a.currentY - 1)
      | some false => some env

/-- A corridor of one row and 101 columns, the agent at `(0, 0)` and the goal at
`(0, 100)`, one hundred steps away. -/
def corridorWorld : Environment :=
  { grid := [ 'A' :: (List.replicate 99 ' ' ++ ['G']) ],
    agentX := 0, agentY := 0, goalX := 0, goalY := 100 }

/-- A 2 by 2 world whose stored agent position `(0, 0)` is in bounds but holds a wall,
the goal at `(1, 1)`. -/
def wallWorld : Environment :=
  { grid := [ ['#', '#'],
              ['#', 'G'] ],
    agentX := 0, agentY := 0, goalX := 1, goalY := 1 }

/-! ## Reading and writing cells -/

theorem readCell_eq_some {g : Grid} {x y : Int} {ch : Char} :
    readCell g x y = some ch ↔
      0 ≤ x ∧ 0 ≤ y ∧ ∃ row, g[x.toNat]? = some row ∧ row[y.toNat]? = some ch := by
  unfold readCell
  by_cases hx : x < 0
  · simp only [hx, true_or, if_true]
    constructor
    · intro h; cases h
    · rintro ⟨h0, _⟩; omega
  by_cases hy : y < 0
  · simp only [hy, or_true, if_true]
    constructor
    · intro h; cases h
    · rintro ⟨_, h0, _⟩; omega
  have hx0 : 0 ≤ x := by omega
  have hy0 : 0 ≤ y := by omega
  simp only [hx, hy, or_self, if_false]
  cases hrow : g[x.toNat]? with
  | none => simp
  | some row => simp [hx0, hy0]

theorem rect_readCell {g : Grid} {R C : Nat} (h : Rect g R C) {x y : Int}
    (hx0 : 0 ≤ x) (hxR : x < R) (hy0 : 0 ≤ y) (hyC : y < C) :
    ∃ ch, readCell g x y = some ch := by
  obtain ⟨hlen, hrows⟩ := h
  have hxl : x.toNat < g.length := by omega
  have hrow : g[x.toNat]? = some g[x.toNat] := List.getElem?_eq_getElem hxl
  have hmem : g[x.toNat] ∈ g := List.getElem_mem hxl
  have hyl : y.toNat < g[x.toNat].length := by rw [hrows _ hmem]; omega
  exact ⟨g[x.toNat][y.toNat], readCell_eq_some.2
    ⟨hx0, hy0, g[x.toNat], hrow, List.getElem?_eq_getElem hyl⟩⟩

theorem readCell_inBounds {g : Grid} {R C : Nat} (h : Rect g R C) {x y : Int} {ch : Char}
    (hr : readCell g x y = some ch) : 0 ≤ x ∧ x < R ∧ 0 ≤ y ∧ y < C := by
  obtain ⟨hlen, hrows⟩ := h
  obtain ⟨hx0, hy0, row, hrow, hcell⟩ := readCell_eq_some.1 hr
  obtain ⟨hxl, hxe⟩ := List.getElem?_eq_some.1 hrow
  obtain ⟨hyl, _⟩ := List.getElem?_eq_some.1 hcell
  have hmem : row ∈ g := hxe ▸ List.getElem_mem hxl
  have hC := hrows _ hmem
  refine ⟨hx0, ?_, hy0, ?_⟩ <;> omega

/-- On a rectangular grid `isValid` performs no out-of-range read, and its value is
decided by the bounds and by the cell. -/
theorem isValid_of_rect {env : Environment} {R C : Nat} (h : Rect env.grid R C)
    (x y : Int) :
    isValid env x y =
      some (Decidable.decide
        (0 ≤ x ∧ x < R ∧ 0 ≤ y ∧ y < C ∧ readCell env.grid x y ≠ some '#')) := by
  have hlen : env.grid.length = R := h.1
  unfold isValid
  by_cases hx : x < 0
  · have : ¬ (0 ≤ x) := by omega
    simp [hx, this]
  by_cases hxR : x ≥ (env.grid.length : Int)
  · have : ¬ (x < R) := by omega
    simp [hx, hxR, this]
  by_cases hy : y < 0
  · have : ¬ (0 ≤ y) := by omega
    simp [hx, hxR, hy, this]
  simp only [hx, hxR, hy, if_false]
  have hx0 : 0 ≤ x := by omega
  have hy0 : 0 ≤ y := by omega
  have hxlt : x < R := by omega
  have h0l : 0 < env.grid.length := by omega
  have hrow0 : env.grid[0]? = some env.grid[0] := List.getElem?_eq_getElem h0l
  have hC : env.grid[0].length = C := h.2 _ (List.getElem_mem h0l)
  rw [hrow0]
  simp only [hC]
  by_cases hyC : y ≥ (C : Int)
  · have : ¬ (y < C) := by omega
    simp [hyC, this]
  have hylt : y < C := by omega
  obtain ⟨ch, hch⟩ := rect_readCell h hx0 hxlt hy0 hylt
  simp only [hyC, if_false, hch]
  by_cases hw : ch = '#'
  · simp [hw]
  · simp [hw, hx0, hxlt, hy0, hylt]

/-- On a rectangular grid a position that is out of bounds or a wall is not valid. -/
theorem isValid_of_blocked {env : Environment} {R C : Nat} (h : Rect env.grid R C)
    {x y : Int} (hb : Blocked env.grid x y) : isValid env x y = some false := by
  rw [isValid_of_rect h]
  rcases hb with hb | hb
  · have hout : ¬ (0 ≤ x ∧ x < R ∧ 0 ≤ y ∧ y < C) := by
      rintro ⟨h1, h2, h3, h4⟩
      obtain ⟨ch, hch⟩ := rect_readCell h h1 h2 h3 h4
      rw [hb] at hch
      cases hch
    simp only [Option.some.injEq, decide_eq_false_iff_not]
    tauto
  · simp [hb]

/-- On a rectangular grid a position that is not valid is out of bounds or a wall. -/
theorem blocked_of_isValid {env : Environment} {R C : Nat} (h : Rect env.grid R C)
    {x y : Int} (hv : isValid env x y = some false) : Blocked env.grid x y := by
  rw [isValid_of_rect h] at hv
  simp only [Option.some.injEq, decide_eq_false_iff_not] at hv
  unfold Blocked
  cases hr : readCell env.grid x y with
  | none => exact Or.inl rfl
  | some ch =>
    right
    by_contra hne
    exact hv ⟨(readCell_inBounds h hr).1, (readCell_inBounds h hr).2.1,
      (readCell_inBounds h hr).2.2.1, (readCell_inBounds h hr).2.2.2, by rw [hr]; exact hne⟩

theorem writeCell_eq_some {g g1 : Grid} {x y : Int} {ch : Char} :
    writeCell g x y ch = some g1 ↔
      0 ≤ x ∧ 0 ≤ y ∧ ∃ row, g[x.toNat]? = some row ∧ y.toNat < row.length ∧
        g1 = g.set x.toNat (row.set y.toNat ch) := by
  unfold writeCell
  by_cases hx : x < 0
  · simp only [hx, true_or, if_true]
    constructor
    · intro h; cases h
    · rintro ⟨h0, _⟩; omega
  by_cases hy : y < 0
  · simp only [hy, or_true, if_true]
    constructor
    · intro h; cases h
    · rintro ⟨_, h0, _⟩; omega
  have hx0 : 0 ≤ x := by omega
  have hy0 : 0 ≤ y := by omega
  simp only [hx, hy, or_self, if_false]
  cases hrow : g[x.toNat]? with
  | none => simp
  | some row =>
    by_cases hl : y.toNat < row.length
    · simp only [hl, if_true, Option.some.injEq]
      constructor
      · intro h; exact ⟨hx0, hy0, row, rfl, hl, h.symm⟩
      · rintro ⟨_, _, row1, h1, _, h2⟩; cases h1; exact h2.symm
    · simp only [hl, if_false]
      constructor
      · intro h; cases h
      · rintro ⟨_, _, row1, h1, h2, _⟩; cases h1; exact absurd h2 hl

/-- A write succeeds exactly on the cells that can be read. -/
theorem writeCell_of_readCell {g : Grid} {x y : Int} {c0 : Char}
    (h : readCell g x y = some c0) (ch : Char) : ∃ g1, writeCell g x y ch = some g1 := by
  obtain ⟨hx0, hy0, row, hrow, hcell⟩ := readCell_eq_some.1 h
  obtain ⟨hyl, _⟩ := List.getElem?_eq_some.1 hcell
  exact ⟨_, writeCell_eq_some.2 ⟨hx0, hy0, row, hrow, hyl, rfl⟩⟩

theorem readCell_of_writeCell {g g1 : Grid} {x y : Int} {ch : Char}
    (h : writeCell g x y ch = some g1) : ∃ c0, readCell g x y = some c0 := by
  obtain ⟨hx0, hy0, row, hrow, hyl, _⟩ := writeCell_eq_some.1 h
  exact ⟨row[y.toNat], readCell_eq_some.2
    ⟨hx0, hy0, row, hrow, List.getElem?_eq_getElem hyl⟩⟩

/-- A write changes the cell written and no other. -/
theorem readCell_writeCell {g g1 : Grid} {x y : Int} {ch : Char}
    (h : writeCell g x y ch = some g1) (x1 y1 : Int) :
    readCell g1 x1 y1 = if x1 = x ∧ y1 = y then some ch else readCell g x1 y1 := by
  obtain ⟨hx0, hy0, row, hrow, hyl, rfl⟩ := writeCell_eq_some.1 h
  obtain ⟨hxl, hxe⟩ := List.getElem?_eq_some.1 hrow
  by_cases hneg : x1 < 0 ∨ y1 < 0
  · have hne : ¬ (x1 = x ∧ y1 = y) := by rintro ⟨rfl, rfl⟩; omega
    simp [readCell, hneg, hne]
  have hx1 : 0 ≤ x1 := by omega
  have hy1 : 0 ≤ y1 := by omega
  by_cases hxe1 : x1 = x
  · subst hxe1
    by_cases hye1 : y1 = y
    · subst hye1
      simp [readCell, hneg, List.getElem?_set, hxl, hyl]
    · have hne : y.toNat ≠ y1.toNat := by omega
      simp [readCell, hneg, List.getElem?_set, hxl, hye1, hne, hrow]
  · have hne : x.toNat ≠ x1.toNat := by omega
    simp [readCell, hneg, List.getElem?_set, hxe1, hne]

/-- A write keeps the number of rows and the length of every row. -/
theorem writeCell_shape {g g1 : Grid} {x y : Int} {ch : Char}
    (h : writeCell g x y ch = some g1) : g1.map List.length = g.map List.length := by
  obtain ⟨_, _, row, hrow, _, rfl⟩ := writeCell_eq_some.1 h
  obtain ⟨hxl, hxe⟩ := List.getElem?_eq_some.1 hrow
  rw [List.map_set, List.length_set, ← hxe]
  apply List.ext_getElem?
  intro n
  by_cases hn : x.toNat = n
  · subst hn; simp [List.getElem?_set, hxl]
  · simp [List.getElem?_set, hn]

theorem writeCell_rect {g g1 : Grid} {x y : Int} {ch : Char} {R C : Nat}
    (h : writeCell g x y ch = some g1) (hr : Rect g R C) : Rect g1 R C := by
  have hs := writeCell_shape h
  have hlen : g1.length = g.length := by
    have := congrArg List.length hs
    simpa using this
  refine ⟨hlen.trans hr.1, ?_⟩
  intro row hmem
  have h1 : row.length ∈ g1.map List.length := List.mem_map_of_mem _ hmem
  rw [hs] at h1
  obtain ⟨row0, hmem0, hl0⟩ := List.mem_map.1 h1
  rw [← hl0]
  exact hr.2 _ hmem0

/-! ## Counting markers -/

theorem count_set_add (row : List Char) (j : Nat) (h : j < row.length) (ch m : Char) :
    (row.set j ch).count m + (if row[j] = m then 1 else 0) =
      row.count m + (if ch = m then 1 else 0) := by
  induction row generalizing j with
  | nil => simp at h
  | cons c rest ih =>
    cases j with
    | zero =>
      simp only [List.set_cons_zero, List.count_cons, List.getElem_cons_zero, beq_iff_eq]
      omega
    | succ k =>
      have hk : k < rest.length := by simpa using h
      have := ih k hk
      simp only [List.set_cons_succ, List.count_cons, List.getElem_cons_succ, beq_iff_eq]
      omega

theorem sum_map_set_add (g : Grid) (f : List Char → Nat) (i : Nat) (h : i < g.length)
    (row1 : List Char) :
    ((g.set i row1).map f).sum + f g[i] = (g.map f).sum + f row1 := by
  induction g generalizing i with
  | nil => simp at h
  | cons r rest ih =>
    cases i with
    | zero => simp; omega
    | succ k =>
      have hk : k < rest.length := by simpa using h
      have := ih k hk
      simp only [List.set_cons_succ, List.map_cons, List.sum_cons, List.getElem_cons_succ]
      omega

/-- A write changes the count of a marker by what it removes and what it puts. -/
theorem countMarker_writeCell {g g1 : Grid} {x y : Int} {ch c0 : Char}
    (h : writeCell g x y ch = some g1) (hr : readCell g x y = some c0) (m : Char) :
    countMarker g1 m + (if c0 = m then 1 else 0) =
      countMarker g m + (if ch = m then 1 else 0) := by
  obtain ⟨_, _, row, hrow, hyl, rfl⟩ := writeCell_eq_some.1 h
  obtain ⟨_, _, row1, hrow1, hcell⟩ := readCell_eq_some.1 hr
  rw [hrow] at hrow1
  cases Option.some.inj hrow1
  obtain ⟨hxl, hxe⟩ := List.getElem?_eq_some.1 hrow
  obtain ⟨_, hce⟩ := List.getElem?_eq_some.1 hcell
  have h1 := sum_map_set_add g (fun r => r.count m) x.toNat hxl (row.set y.toNat ch)
  have h2 := count_set_add row y.toNat hyl ch m
  simp only [hxe, hce] at h1 h2
  unfold countMarker
  omega

theorem countMarker_pos_of_readCell {g : Grid} {x y : Int} {m : Char}
    (hr : readCell g x y = some m) : 0 < countMarker g m := by
  by_cases hm : m = ' '
  · subst hm
    obtain ⟨g1, hw⟩ := writeCell_of_readCell hr 'A'
    have := countMarker_writeCell hw hr ' '
    simp at this
    omega
  · obtain ⟨g1, hw⟩ := writeCell_of_readCell hr ' '
    have := countMarker_writeCell hw hr m
    have hne : ¬ (' ' = m) := fun h => hm h.symm
    simp [hne] at this
    omega

/-! ## The two branches of `updateAgentPosition` -/

/-- A valid position is a cell of the grid that does not hold a wall. -/
theorem readCell_of_isValid {env : Environment} {x y : Int}
    (hv : isValid env x y = some true) : ∃ ch, readCell env.grid x y = some ch ∧ ch ≠ '#' := by
  unfold isValid at hv
  split at hv
  · cases hv
  split at hv
  · cases hv
  split at hv
  · cases hv
  split at hv
  · cases hv
  split at hv
  · cases hv
  split at hv
  · cases hv
  · rename_i ch hch
    refine ⟨ch, hch, ?_⟩
    simpa using hv

/-- The valid branch: both writes are in range and the coordinates are stored. -/
theorem update_valid_branch {env : Environment} {oldX oldY newX newY : Int}
    {c0 : Char} (hold : readCell env.grid oldX oldY = some c0)
    (hnew : isValid env newX newY = some true) :
    ∃ g1 g2, writeCell env.grid oldX oldY ' ' = some g1 ∧
      writeCell g1 newX newY 'A' = some g2 ∧
      updateAgentPosition env oldX oldY newX newY =
        some { env with grid := g2, agentX := newX, agentY := newY } := by
  obtain ⟨g1, hg1⟩ := writeCell_of_readCell hold ' '
  obtain ⟨ch, hch, _⟩ := readCell_of_isValid hnew
  have hr1 : ∃ c1, readCell g1 newX newY = some c1 := by
    rw [readCell_writeCell hg1]
    split
    · exact ⟨_, rfl⟩
    · exact ⟨_, hch⟩
  obtain ⟨c1, hc1⟩ := hr1
  obtain ⟨g2, hg2⟩ := writeCell_of_readCell hc1 'A'
  exact ⟨g1, g2, hg1, hg2, by simp [updateAgentPosition, hnew, hg1, hg2]⟩

/-- Whenever `updateAgentPosition` returns, it took one of its two branches. -/
theorem updateAgentPosition_cases {env env1 : Environment} {oldX oldY newX newY : Int}
    (h : updateAgentPosition env oldX oldY newX newY = some env1) :
    (isValid env newX newY = some false ∧ env1 = env) ∨
      (isValid env newX newY = some true ∧
        ∃ g1 g2, writeCell env.grid oldX oldY ' ' = some g1 ∧
          writeCell g1 newX newY 'A' = some g2 ∧
          env1 = { env with grid := g2, agentX := newX, agentY := newY }) := by
  unfold updateAgentPosition at h
  split at h
  · cases h
  · rename_i hv
    left
    exact ⟨hv, (Option.some.inj h).symm⟩
  · rename_i hv
    right
    refine ⟨hv, ?_⟩
    split at h
    · cases h
    · rename_i g1 hg1
      split at h
      · cases h
      · rename_i g2 hg2
        exact ⟨g1, g2, hg1, hg2, (Option.some.inj h).symm⟩

/-- On a rectangular grid, with `old` a cell of the grid, `updateAgentPosition`
performs no out-of-range access. -/
theorem updateAgentPosition_defined {env : Environment} {R C : Nat}
    (hr : Rect env.grid R C) {oldX oldY : Int} {c0 : Char}
    (hold : readCell env.grid oldX oldY = some c0) (newX newY : Int) :
    ∃ env1, updateAgentPosition env oldX oldY newX newY = some env1 := by
  cases hb : Decidable.decide
      (0 ≤ newX ∧ newX < R ∧ 0 ≤ newY ∧ newY < C ∧ readCell env.grid newX newY ≠ some '#') with
  | false =>
    have hv : isValid env newX newY = some false := by rw [isValid_of_rect hr, hb]
    exact ⟨env, by simp [updateAgentPosition, hv]⟩
  | true =>
    have hv : isValid env newX newY = some true := by rw [isValid_of_rect hr, hb]
    obtain ⟨g1, g2, _, _, h⟩ := update_valid_branch hold hv
    exact ⟨_, h⟩

/-- The effect of a move on the agent marker: one marker before, at `old`, gives one
marker after, at the stored coordinates. -/
theorem updateAgentPosition_agent_count {env env1 : Environment} {oldX oldY newX newY : Int}
    (hone : countMarker env.grid 'A' = 1) (hat : readCell env.grid oldX oldY = some 'A')
    (hst : env.agentX = oldX ∧ env.agentY = oldY)
    (h : updateAgentPosition env oldX oldY newX newY = some env1) :
    countMarker env1.grid 'A' = 1 ∧ readCell env1.grid env1.agentX env1.agentY = some 'A' := by
  rcases updateAgentPosition_cases h with ⟨_, rfl⟩ | ⟨_, g1, g2, hg1, hg2, rfl⟩
  · rw [hst.1, hst.2]; exact ⟨hone, hat⟩
  · have e1 := countMarker_writeCell hg1 hat 'A'
    obtain ⟨c1, hc1⟩ := readCell_of_writeCell hg2
    have e2 := countMarker_writeCell hg2 hc1 'A'
    have hA : readCell g2 newX newY = some 'A' := by
      rw [readCell_writeCell hg2]; simp
    have hpos := countMarker_pos_of_readCell hA
    simp at e1 e2
    refine ⟨?_, hA⟩
    show countMarker g2 'A' = 1
    split at e2 <;> omega

/-! ## The branches of `act` -/

theorem guardValid_eq_true {b : Bool} {env : Environment} {x y : Int} :
    guardValid b env x y = some true ↔ b = true ∧ isValid env x y = some true := by
  cases b <;> simp [guardValid]

theorem guardValid_eq_false {b : Bool} {env : Environment} {x y : Int} :
    guardValid b env x y = some false ↔ b = false ∨ isValid env x y = some false := by
  cases b <;> simp [guardValid]

theorem guardValid_defined {env : Environment} {R C : Nat} (hr : Rect env.grid R C)
    (b : Bool) (x y : Int) : ∃ v, guardValid b env x y = some v := by
  cases b
  · exact ⟨false, rfl⟩
  · exact ⟨_, isValid_of_rect hr x y⟩

/-- Whenever `act` returns, it left the world alone or made one call of
`updateAgentPosition` from the perceived current position to a valid target. -/
theorem act_cases {a : Agent} {env env1 : Environment} (h : act a env = some env1) :
    env1 = env ∨ ∃ x y, isValid env x y = some true ∧
      updateAgentPosition env a.currentX a.currentY x y = some env1 := by
  unfold act at h
  split at h
  · cases h
  · rename_i hv
    exact Or.inr ⟨_, _, hv, h⟩
  split at h
  · cases h
  · rename_i hv
    exact Or.inr ⟨_, _, (guardValid_eq_true.1 hv).2, h⟩
  split at h
  · cases h
  · rename_i hv
    exact Or.inr ⟨_, _, (guardValid_eq_true.1 hv).2, h⟩
  split at h
  · cases h
  · rename_i hv
    exact Or.inr ⟨_, _, (guardValid_eq_true.1 hv).2, h⟩
  split at h
  · cases h
  · rename_i hv
    exact Or.inr ⟨_, _, (guardValid_eq_true.1 hv).2, h⟩
  · exact Or.inl (Option.some.inj h).symm

/-- On a rectangular grid, with the perceived current position a cell of the grid,
`act` performs no out-of-range access. -/
theorem act_defined {a : Agent} {env : Environment} {R C : Nat} (hr : Rect env.grid R C)
    {c0 : Char} (hcur : readCell env.grid a.currentX a.currentY = some c0) :
    ∃ env1, act a env = some env1 := by
  have hu := fun x y => updateAgentPosition_defined hr hcur x y
  obtain ⟨v0, h0⟩ : ∃ v, isValid env a.nextX a.nextY = some v := ⟨_, isValid_of_rect hr _ _⟩
  obtain ⟨v1, h1⟩ := guardValid_defined hr (a.goalY > a.currentY) a.currentX (a.currentY + 1)
  obtain ⟨v2, h2⟩ := guardValid_defined hr (a.goalY < a.currentY) a.currentX (a.currentY - 1)
  obtain ⟨v3, h3⟩ := guardValid_defined hr (a.goalX > a.currentX) (a.currentX + 1) a.currentY
  obtain ⟨v4, h4⟩ := guardValid_defined hr (a.goalX < a.currentX) (a.currentX - 1) a.currentY
  unfold act
  rw [h0, h1, h2, h3, h4]
  cases v0
  · cases v1
    · cases v2
      · cases v3
        · cases v4
          · exact ⟨env, rfl⟩
          · exact hu _ _
        · exact hu _ _
      · exact hu _ _
    · exact hu _ _
  · exact hu _ _

/-- Perceive and decide make the perceived current position the stored one. -/
theorem decide_perceive_current (a : Agent) (env : Environment) :
    (decide (perceive a env)).currentX = env.agentX ∧
      (decide (perceive a env)).currentY = env.agentY ∧
      (decide (perceive a env)).goalX = env.goalX ∧
      (decide (perceive a env)).goalY = env.goalY := by
  unfold decide perceive
  simp only
  split_ifs <;> simp

theorem tick_eq_some {a a1 : Agent} {env env1 : Environment}
    (h : tick a env = some (a1, env1)) :
    a1 = decide (perceive a env) ∧ act (decide (perceive a env)) env = some env1 := by
  unfold tick at h
  simp only at h
  split at h
  · cases h
  · rename_i e he
    cases h
    exact ⟨rfl, he⟩

/-- On a rectangular grid, with the stored agent position a cell of the grid, a
tick performs no out-of-range access. -/
theorem tick_defined {env : Environment} {R C : Nat} (hr : Rect env.grid R C)
    {c0 : Char} (hcur : readCell env.grid env.agentX env.agentY = some c0) (a : Agent) :
    ∃ env1, tick a env = some (decide (perceive a env), env1) := by
  have hc := decide_perceive_current a env
  have hcur1 : readCell env.grid (decide (perceive a env)).currentX
      (decide (perceive a env)).currentY = some c0 := by rw [hc.1, hc.2.1]; exact hcur
  obtain ⟨env1, h1⟩ := act_defined hr hcur1
  exact ⟨env1, by simp [tick, h1]⟩

/-! ## The driver loop -/

/-- Perceive overwrites the four perceived fields and decide the two planned ones:
the agent after perceive and decide does not depend on the agent before. -/
theorem decide_perceive_indep (a b : Agent) (env : Environment) :
    decide (perceive a env) = decide (perceive b env) := by
  unfold decide perceive
  rfl

theorem tick_indep (a b : Agent) (env : Environment) : tick a env = tick b env := by
  unfold tick
  rw [decide_perceive_indep a b env]

/-- The first pass through the loop only tests `hasReachedGoal` on the initial agent;
two initial agents on which the test fails give the same run. -/
theorem runLoop_indep (k s : Nat) (a b : Agent) (env : Environment)
    (ha : hasReachedGoal a = false) (hb : hasReachedGoal b = false) :
    runLoop (k + 1) s a env = runLoop (k + 1) s b env := by
  have ht := tick_indep a b env
  unfold runLoop
  simp only [ha, hb, ht, Bool.false_eq_true, if_false]

/-- The constructor finds the agent at `(1, 1)` and the goal at `(4, 8)` whatever the
coordinate fields held before its scan. -/
theorem init_eq (ax ay gx gy : Int) :
    Environment.init ax ay gx gy =
      { grid := layout, agentX := 1, agentY := 1, goalX := 4, goalY := 8 } := rfl

/-- In a rectangular world whose agent is off the goal with its four neighbours out of
bounds or walls, a tick returns the world unchanged. -/
theorem stall_tick {env : Environment} {R C : Nat} (hr : Rect env.grid R C)
    (hne : ¬ (env.agentX = env.goalX ∧ env.agentY = env.goalY))
    (hd : Blocked env.grid (env.agentX + 1) env.agentY)
    (hu : Blocked env.grid (env.agentX - 1) env.agentY)
    (hrt : Blocked env.grid env.agentX (env.agentY + 1))
    (hl : Blocked env.grid env.agentX (env.agentY - 1)) (a : Agent) :
    tick a env = some (decide (perceive a env), env) := by
  have vd := isValid_of_blocked hr hd
  have vu := isValid_of_blocked hr hu
  have vr := isValid_of_blocked hr hrt
  have vl := isValid_of_blocked hr hl
  have hact : act (decide (perceive a env)) env = some env := by
    unfold decide perceive
    simp only
    split_ifs with h1 h2 h3 h4
    · have n2 : ¬ env.goalX < env.agentX := by omega
      simp [act, guardValid, vd, vr, vl, h1, n2]
    · simp [act, guardValid, vu, vr, vl, h1, h2]
    · have : env.goalX = env.agentX := by omega
      have n4 : ¬ env.goalY < env.agentY := by omega
      simp [act, guardValid, vr, h3, n4, this]
    · have : env.goalX = env.agentX := by omega
      simp [act, guardValid, vl, h3, h4, this]
    · exfalso
      apply hne
      constructor <;> omega
  simp [tick, hact]

/-- Once a tick leaves the world unchanged with the agent off the goal, the loop runs
until the step limit. -/
theorem runLoop_stalled {env : Environment}
    (hne : ¬ (env.agentX = env.goalX ∧ env.agentY = env.goalY))
    (hst : ∀ a, tick a env = some (decide (perceive a env), env)) (b : Agent) :
    ∀ k s, runLoop k s (decide (perceive b env)) env =
      some { steps := s + k, agent := decide (perceive b env), env := env } := by
  have hc := decide_perceive_current b env
  have hnr : hasReachedGoal (decide (perceive b env)) = false := by
    simp only [hasReachedGoal, hc.1, hc.2.1, hc.2.2.1, hc.2.2.2]
    by_cases hx : env.agentX = env.goalX
    · have hy : ¬ env.agentY = env.goalY := fun h => hne ⟨hx, h⟩
      simp [hy]
    · simp [hx]
  intro k
  induction k with
  | zero => intro s; simp [runLoop]
  | succ n ih =>
    intro s
    unfold runLoop
    rw [hnr, hst, decide_perceive_indep (decide (perceive b env)) b env]
    simp only [Bool.false_eq_true, if_false]
    rw [ih (s + 1)]
    congr 2
    omega

/-- The stall scenario for an agent whose initial fields do not satisfy
`hasReachedGoal`: the loop performs all `maxSteps` ticks on an unchanged world and
ends with `hasReachedGoal` false. -/
theorem stall_runs_to_limit {env : Environment} {R C : Nat} (hr : Rect env.grid R C)
    (hne : ¬ (env.agentX = env.goalX ∧ env.agentY = env.goalY))
    (hd : Blocked env.grid (env.agentX + 1) env.agentY)
    (hu : Blocked env.grid (env.agentX - 1) env.agentY)
    (hrt : Blocked env.grid env.agentX (env.agentY + 1))
    (hl : Blocked env.grid env.agentX (env.agentY - 1))
    (a0 : Agent) (h0 : hasReachedGoal a0 = false) :
    runFrom a0 env =
      some { steps := maxSteps, agent := decide (perceive a0 env), env := env } := by
  have hst := stall_tick hr hne hd hu hrt hl
  have := runLoop_stalled hne hst a0 99 1
  unfold runFrom maxSteps
  unfold runLoop
  rw [h0, hst a0]
  simpa using this

/-! ## The decision rule -/

/-- The candidate of `decide` lies between the current and the goal coordinate on each
axis, so the `+ 1` and `- 1` of the source cannot overflow an `int`. -/
theorem decide_next_between (a : Agent) :
    (min a.currentX a.goalX ≤ (decide a).nextX ∧ (decide a).nextX ≤ max a.currentX a.goalX) ∧
      (min a.currentY a.goalY ≤ (decide a).nextY ∧
        (decide a).nextY ≤ max a.currentY a.goalY) := by
  unfold decide
  simp only
  split_ifs <;> simp only [le_min_iff, min_le_iff, le_max_iff, max_le_iff] <;> omega

/-- C2: for all perceived current positions `(r, c)` and goal positions `(gr, gc)`
(and whatever the planned move held before), `decide` sets the candidate to
`(r+1, c)` if `gr > r`, else `(r-1, c)` if `gr < r`, else `(r, c+1)` if `gc > c`,
else `(r, c-1)` if `gc < c`, else `(r, c)`; it leaves the perceived fields alone,
and the column of the candidate differs from `c` only when `gr = r`. -/
theorem decide_candidate (r c gr gc nx ny : Int) :
    ((decide ⟨r, c, gr, gc, nx, ny⟩).nextX, (decide ⟨r, c, gr, gc, nx, ny⟩).nextY) =
        (if gr > r then (r + 1, c)
         else if gr < r then (r - 1, c)
         else if gc > c then (r, c + 1)
         else if gc < c then (r, c - 1)
         else (r, c)) ∧
      (decide ⟨r, c, gr, gc, nx, ny⟩).currentX = r ∧
      (decide ⟨r, c, gr, gc, nx, ny⟩).currentY = c ∧
      (decide ⟨r, c, gr, gc, nx, ny⟩).goalX = gr ∧
      (decide ⟨r, c, gr, gc, nx, ny⟩).goalY = gc ∧
      ((decide ⟨r, c, gr, gc, nx, ny⟩).nextY ≠ c → gr = r) := by
  unfold decide
  by_cases h1 : gr > r
  · simp [h1]
  by_cases h2 : gr < r
  · simp [h1, h2]
  have hrow : gr = r := by omega
  by_cases h3 : gc > c
  · simp [h1, h2, h3, hrow]
  by_cases h4 : gc < c
  · simp [h1, h2, h3, h4, hrow]
  · simp [h1, h2, h3, h4, hrow]

/-! ## Validity of a position -/

/-- C4: on a rectangular grid of `R` rows and `C` columns (any size, empty ones
included) and for all integers `r`, `c`, `isValid` performs no out-of-range read
and returns true exactly when `0 <= r < R`, `0 <= c < C` and the cell at `(r, c)` is
not a wall, false otherwise; in particular it returns false at `r = -1`, `c = -1`,
`r = R` and `c = C`.  It is a function of the world to a boolean: the world is not
changed. -/
theorem isValid_iff_inBounds_not_wall (env : Environment) (R C : Nat)
    (h : Rect env.grid R C) (r c : Int) :
    (isValid env r c = some true ↔
        (0 ≤ r ∧ r < R ∧ 0 ≤ c ∧ c < C ∧ readCell env.grid r c ≠ some '#')) ∧
      (isValid env r c = some false ↔
        ¬ (0 ≤ r ∧ r < R ∧ 0 ≤ c ∧ c < C ∧ readCell env.grid r c ≠ some '#')) ∧
      isValid env (-1) c = some false ∧ isValid env r (-1) = some false ∧
      isValid env R c = some false ∧ isValid env r C = some false := by
  refine ⟨?_, ?_, ?_, ?_, ?_, ?_⟩
  · rw [isValid_of_rect h]; simp
  · rw [isValid_of_rect h]; simp
  · rw [isValid_of_rect h]; simp
  · rw [isValid_of_rect h]; simp
  · rw [isValid_of_rect h]; simp
  · rw [isValid_of_rect h]; simp

/-- Witness of C4 on the fixed layout, 7 rows by 10 columns, at the cell `(1, 1)`. -/
theorem isValid_iff_inBounds_not_wall_witness :
    Rect world0.grid 7 10 ∧ isValid world0 1 1 = some true ∧
      isValid world0 (-1) 1 = some false ∧ isValid world0 1 (10 : Nat) = some false :=
  ⟨by decide,
   (isValid_iff_inBounds_not_wall world0 7 10 (by decide) 1 1).1.2 (by decide),
   (isValid_iff_inBounds_not_wall world0 7 10 (by decide) 1 1).2.2.1,
   (isValid_iff_inBounds_not_wall world0 7 10 (by decide) 1 1).2.2.2.2.2⟩

/-! ## Moving the agent marker -/

/-- C5: when `isValid(new)` is false (on a rectangular grid: when `new` is out of
bounds or a wall), `updateAgentPosition(old, new)` returns the world as it was:
same grid, same stored agent and goal coordinates, whatever `old` is. -/
theorem updateAgentPosition_invalid (env : Environment) (oldX oldY newX newY : Int)
    (h : isValid env newX newY = some false ∨
      ((∃ R C, Rect env.grid R C) ∧ Blocked env.grid newX newY)) :
    updateAgentPosition env oldX oldY newX newY = some env := by
  have hv : isValid env newX newY = some false := by
    rcases h with h | ⟨⟨R, C, hr⟩, hb⟩
    · exact h
    · exact isValid_of_blocked hr hb
  simp [updateAgentPosition, hv]

/-- Witness of C5: on the fixed layout a move from `(1, 1)` onto the wall at `(0, 1)`
is ignored. -/
theorem updateAgentPosition_invalid_witness :
    isValid world0 0 1 = some false ∧
      updateAgentPosition world0 1 1 0 1 = some world0 :=
  ⟨by decide, updateAgentPosition_invalid world0 1 1 0 1 (Or.inl (by decide))⟩

/-- C6: for every world, every old position that is a cell of the grid and every
new position with `isValid(new)` true, `updateAgentPosition(old, new)` returns a
world in which the cell at `new` holds the agent marker, the cell at `old` holds
the empty symbol when `old` differs from `new`, the stored agent coordinates are
`new`, the stored goal coordinates are unchanged, every other cell is unchanged
and the grid keeps its shape. -/
theorem updateAgentPosition_valid (env : Environment) (oldX oldY newX newY : Int)
    (hold : (readCell env.grid oldX oldY).isSome = true)
    (hnew : isValid env newX newY = some true) :
    ∃ env1, updateAgentPosition env oldX oldY newX newY = some env1 ∧
      readCell env1.grid newX newY = some 'A' ∧
      (¬ (oldX = newX ∧ oldY = newY) → readCell env1.grid oldX oldY = some ' ') ∧
      env1.agentX = newX ∧ env1.agentY = newY ∧
      env1.goalX = env.goalX ∧ env1.goalY = env.goalY ∧
      (∀ x y, ¬ (x = oldX ∧ y = oldY) → ¬ (x = newX ∧ y = newY) →
        readCell env1.grid x y = readCell env.grid x y) ∧
      env1.grid.map List.length = env.grid.map List.length := by
  obtain ⟨c0, hc0⟩ := Option.isSome_iff_exists.1 hold
  obtain ⟨g1, g2, hg1, hg2, hu⟩ := update_valid_branch hc0 hnew
  refine ⟨_, hu, ?_, ?_, rfl, rfl, rfl, rfl, ?_, ?_⟩
  · show readCell g2 newX newY = some 'A'
    rw [readCell_writeCell hg2]; simp
  · intro hne
    show readCell g2 oldX oldY = some ' '
    rw [readCell_writeCell hg2, if_neg hne, readCell_writeCell hg1]; simp
  · intro x y h1 h2
    show readCell g2 x y = readCell env.grid x y
    rw [readCell_writeCell hg2, if_neg h2, readCell_writeCell hg1, if_neg h1]
  · show g2.map List.length = env.grid.map List.length
    rw [writeCell_shape hg2, writeCell_shape hg1]

/-- Witness of C6: on the fixed layout the move from `(1, 1)` to the free cell
`(2, 1)`. -/
theorem updateAgentPosition_valid_witness :
    (readCell world0.grid 1 1).isSome = true ∧ isValid world0 2 1 = some true ∧
      ∃ env1, updateAgentPosition world0 1 1 2 1 = some env1 ∧
        readCell env1.grid 2 1 = some 'A' ∧
        (¬ ((1 : Int) = 2 ∧ (1 : Int) = 1) → readCell env1.grid 1 1 = some ' ') ∧
        env1.agentX = 2 ∧ env1.agentY = 1 ∧
        env1.goalX = world0.goalX ∧ env1.goalY = world0.goalY ∧
        (∀ x y, ¬ (x = 1 ∧ y = 1) → ¬ (x = 2 ∧ y = 1) →
          readCell env1.grid x y = readCell world0.grid x y) ∧
        env1.grid.map List.length = world0.grid.map List.length :=
  ⟨by decide, by decide, updateAgentPosition_valid world0 1 1 2 1 (by decide) (by decide)⟩

/-- C7: for every world whose grid holds the agent marker in exactly one cell, that
cell being the stored agent position `p`, and for every target `q`: whenever
`updateAgentPosition(p, q)` returns, exactly one cell of the grid holds the agent
marker and it is the cell at the stored agent coordinates; the same holds after
every tick of the controller; and on a rectangular grid both calls do return. -/
theorem updateAgentPosition_one_agent (env : Environment) (qx qy : Int)
    (hone : countMarker env.grid 'A' = 1)
    (hat : readCell env.grid env.agentX env.agentY = some 'A') :
    (∀ env1, updateAgentPosition env env.agentX env.agentY qx qy = some env1 →
        countMarker env1.grid 'A' = 1 ∧
          readCell env1.grid env1.agentX env1.agentY = some 'A') ∧
      (∀ a a1 env1, tick a env = some (a1, env1) →
        countMarker env1.grid 'A' = 1 ∧
          readCell env1.grid env1.agentX env1.agentY = some 'A') ∧
      (∀ R C, Rect env.grid R C →
        (∃ env1, updateAgentPosition env env.agentX env.agentY qx qy = some env1) ∧
          ∀ a, ∃ a1 env1, tick a env = some (a1, env1)) := by
  refine ⟨?_, ?_, ?_⟩
  · intro env1 h
    exact updateAgentPosition_agent_count hone hat ⟨rfl, rfl⟩ h
  · intro a a1 env1 h
    obtain ⟨_, hact⟩ := tick_eq_some h
    have hc := decide_perceive_current a env
    rcases act_cases hact with rfl | ⟨x, y, _, hu⟩
    · exact ⟨hone, hat⟩
    · rw [hc.1, hc.2.1] at hu
      exact updateAgentPosition_agent_count hone hat ⟨rfl, rfl⟩ hu
  · intro R C hr
    refine ⟨updateAgentPosition_defined hr hat qx qy, ?_⟩
    intro a
    obtain ⟨env1, h⟩ := tick_defined hr hat a
    exact ⟨_, env1, h⟩

/-- Witness of C7: the fixed layout holds one agent marker, at the stored position
`(1, 1)`, and keeps exactly one after the move to `(2, 1)`. -/
theorem updateAgentPosition_one_agent_witness :
    countMarker world0.grid 'A' = 1 ∧
      readCell world0.grid world0.agentX world0.agentY = some 'A' ∧
      ∃ env1, updateAgentPosition world0 world0.agentX world0.agentY 2 1 = some env1 ∧
        countMarker env1.grid 'A' = 1 ∧
        readCell env1.grid env1.agentX env1.agentY = some 'A' :=
  ⟨by decide, by decide,
    (((updateAgentPosition_one_agent world0 2 1 (by decide) (by decide)).2.2 7 10
      (by decide)).1).elim fun env1 h1 =>
        ⟨env1, h1, (updateAgentPosition_one_agent world0 2 1 (by decide) (by decide)).1 env1 h1⟩⟩

/-! ## Acting -/

/-- C3: for every world whose stored agent position `(r, c)` is a cell of the grid,
and every perceived state with current position `(r, c)` and candidate `n`: if
`isValid(n)` then `act` moves the agent to `n`; if `isValid(n)` is false then `act`
moves the agent to the first that applies of `(r, c+1)` (goal column `> c` and valid),
`(r, c-1)` (goal column `< c` and valid), `(r+1, c)` (goal row `> r` and valid),
`(r-1, c)` (goal row `< r` and valid), an option not applying when its goal test
fails or `isValid` returns false; and if none applies `act` returns the world
unchanged. -/
theorem act_fallback_order (env : Environment) (a : Agent)
    (hcur : a.currentX = env.agentX ∧ a.currentY = env.agentY)
    (hin : (readCell env.grid env.agentX env.agentY).isSome = true) :
    (isValid env a.nextX a.nextY = some true → MovesTo a env a.nextX a.nextY) ∧
      (isValid env a.nextX a.nextY = some false →
        ((a.goalY > a.currentY ∧ isValid env a.currentX (a.currentY + 1) = some true) →
            MovesTo a env a.currentX (a.currentY + 1)) ∧
          ((¬ a.goalY > a.currentY ∨ isValid env a.currentX (a.currentY + 1) = some false) →
            ((a.goalY < a.currentY ∧ isValid env a.currentX (a.currentY - 1) = some true) →
                MovesTo a env a.currentX (a.currentY - 1)) ∧
              ((¬ a.goalY < a.currentY ∨
                  isValid env a.currentX (a.currentY - 1) = some false) →
                ((a.goalX > a.currentX ∧
                    isValid env (a.currentX + 1) a.currentY = some true) →
                    MovesTo a env (a.currentX + 1) a.currentY) ∧
                  ((¬ a.goalX > a.currentX ∨
                      isValid env (a.currentX + 1) a.currentY = some false) →
                    ((a.goalX < a.currentX ∧
                        isValid env (a.currentX - 1) a.currentY = some true) →
                        MovesTo a env (a.currentX - 1) a.currentY) ∧
                      ((¬ a.goalX < a.currentX ∨
                          isValid env (a.currentX - 1) a.currentY = some false) →
                        act a env = some env))))) := by
  obtain ⟨c0, hc0⟩ := Option.isSome_iff_exists.1 hin
  rw [← hcur.1, ← hcur.2] at hc0
  have hmove : ∀ x y, isValid env x y = some true →
      act a env = updateAgentPosition env a.currentX a.currentY x y → MovesTo a env x y := by
    intro x y hv hact
    obtain ⟨g1, g2, _, hg2, hu⟩ := update_valid_branch hc0 hv
    refine ⟨hact, _, hact.trans hu, rfl, rfl, ?_⟩
    show readCell g2 x y = some 'A'
    rw [readCell_writeCell hg2]; simp
  have hT : ∀ (b : Prop) [Decidable b] (x y : Int),
      (b ∧ isValid env x y = some true) →
        guardValid (Decidable.decide b) env x y = some true := by
    intro b _ x y h
    exact guardValid_eq_true.2 ⟨by simpa using h.1, h.2⟩
  have hF : ∀ (b : Prop) [Decidable b] (x y : Int),
      (¬ b ∨ isValid env x y = some false) →
        guardValid (Decidable.decide b) env x y = some false := by
    intro b _ x y h
    exact guardValid_eq_false.2 (h.imp (fun hb => by simpa using hb) id)
  refine ⟨fun h0 => hmove _ _ h0 (by simp [act, h0]), fun h0 => ⟨fun h1 => ?_, fun n1 =>
    ⟨fun h2 => ?_, fun n2 => ⟨fun h3 => ?_, fun n3 => ⟨fun h4 => ?_, fun n4 => ?_⟩⟩⟩⟩⟩
  · exact hmove _ _ h1.2 (by simp [act, h0, hT _ _ _ h1])
  · exact hmove _ _ h2.2 (by simp [act, h0, hF _ _ _ n1, hT _ _ _ h2])
  · exact hmove _ _ h3.2 (by simp [act, h0, hF _ _ _ n1, hF _ _ _ n2, hT _ _ _ h3])
  · exact hmove _ _ h4.2
      (by simp [act, h0, hF _ _ _ n1, hF _ _ _ n2, hF _ _ _ n3, hT _ _ _ h4])
  · simp [act, h0, hF _ _ _ n1, hF _ _ _ n2, hF _ _ _ n3, hF _ _ _ n4]

/-- Witness of C3: on the fixed layout, with the wall `(0, 1)` as candidate and the
goal at `(4, 8)`, the first fallback applies and the agent moves to `(1, 2)`. -/
theorem act_fallback_order_witness :
    ((1 : Int) = world0.agentX ∧ (1 : Int) = world0.agentY) ∧
      (readCell world0.grid world0.agentX world0.agentY).isSome = true ∧
      isValid world0 0 1 = some false ∧
      MovesTo ⟨1, 1, 4, 8, 0, 1⟩ world0 1 2 :=
  ⟨by decide, by decide, by decide,
    ((act_fallback_order world0 ⟨1, 1, 4, 8, 0, 1⟩ (by decide) (by decide)).2
      (by decide)).1 (by decide)⟩

/-! ## The goal marker -/

/-- Counterexample to C8: in a rectangular world with one agent marker at the stored
agent position `(1, 1)` and one goal marker at the stored goal position `(1, 2)`,
one tick moves the agent onto the goal cell and no goal marker is left. -/
theorem goal_marker_overwritten :
    Rect adjacentWorld.grid 3 4 ∧
      countMarker adjacentWorld.grid 'A' = 1 ∧
      readCell adjacentWorld.grid adjacentWorld.agentX adjacentWorld.agentY = some 'A' ∧
      countMarker adjacentWorld.grid 'G' = 1 ∧
      readCell adjacentWorld.grid adjacentWorld.goalX adjacentWorld.goalY = some 'G' ∧
      (tick zeroAgent adjacentWorld).map
          (fun p => (countMarker p.2.grid 'G', readCell p.2.grid p.2.goalX p.2.goalY)) =
        some (0, some 'A') := by
  decide

/-- C8, amended: in a rectangular world with the agent marker at the stored agent
position and exactly one goal marker, at the stored goal position, a tick returns
and leaves the stored goal coordinates unchanged; unless the agent now stands on
the goal position the grid still holds exactly one goal marker, at the stored goal
position; when the agent has arrived on the goal position the goal marker has been
overwritten by the agent marker and the grid holds no goal marker. -/
theorem tick_goal_marker (env : Environment) (R C : Nat) (a : Agent)
    (hr : Rect env.grid R C)
    (hA : readCell env.grid env.agentX env.agentY = some 'A')
    (hG1 : countMarker env.grid 'G' = 1)
    (hG : readCell env.grid env.goalX env.goalY = some 'G') :
    ∃ env1, tick a env = some (decide (perceive a env), env1) ∧
      env1.goalX = env.goalX ∧ env1.goalY = env.goalY ∧
      (¬ (env1.agentX = env.goalX ∧ env1.agentY = env.goalY) →
        countMarker env1.grid 'G' = 1 ∧
          readCell env1.grid env1.goalX env1.goalY = some 'G') ∧
      ((env1.agentX = env.goalX ∧ env1.agentY = env.goalY) →
        countMarker env1.grid 'G' = 0 ∧
          readCell env1.grid env1.goalX env1.goalY = some 'A') := by
  obtain ⟨env1, ht⟩ := tick_defined hr hA a
  obtain ⟨_, hact⟩ := tick_eq_some ht
  have hc := decide_perceive_current a env
  have hne : ¬ (env.agentX = env.goalX ∧ env.agentY = env.goalY) := by
    rintro ⟨h1, h2⟩
    rw [h1, h2, hG] at hA
    simp at hA
  have hsame : env1 = env →
      ∃ e, tick a env = some (decide (perceive a env), e) ∧
        e.goalX = env.goalX ∧ e.goalY = env.goalY ∧
        (¬ (e.agentX = env.goalX ∧ e.agentY = env.goalY) →
          countMarker e.grid 'G' = 1 ∧ readCell e.grid e.goalX e.goalY = some 'G') ∧
        ((e.agentX = env.goalX ∧ e.agentY = env.goalY) →
          countMarker e.grid 'G' = 0 ∧ readCell e.grid e.goalX e.goalY = some 'A') := by
    intro h
    rw [h] at ht
    exact ⟨env, ht, rfl, rfl, fun _ => ⟨hG1, hG⟩, fun h => absurd h hne⟩
  rcases act_cases hact with h | ⟨x, y, _, hu⟩
  · exact hsame h
  rw [hc.1, hc.2.1] at hu
  rcases updateAgentPosition_cases hu with ⟨_, h⟩ | ⟨_, g1, g2, hg1, hg2, h⟩
  · exact hsame h
  subst h
  have hgo : ¬ (env.goalX = env.agentX ∧ env.goalY = env.agentY) :=
    fun h => hne ⟨h.1.symm, h.2.symm⟩
  have hr1 : readCell g1 env.goalX env.goalY = some 'G' := by
    rw [readCell_writeCell hg1, if_neg hgo]; exact hG
  have e1 := countMarker_writeCell hg1 hA 'G'
  obtain ⟨c1, hc1⟩ := readCell_of_writeCell hg2
  have e2 := countMarker_writeCell hg2 hc1 'G'
  simp at e1 e2
  refine ⟨_, ht, rfl, rfl, ?_, ?_⟩
  · intro hna
    have hgn : ¬ (env.goalX = x ∧ env.goalY = y) := fun h => hna ⟨h.1.symm, h.2.symm⟩
    have hr2 : readCell g2 env.goalX env.goalY = some 'G' := by
      rw [readCell_writeCell hg2, if_neg hgn]; exact hr1
    have hpos := countMarker_pos_of_readCell hr2
    refine ⟨?_, hr2⟩
    show countMarker g2 'G' = 1
    split at e2 <;> omega
  · rintro ⟨hx, hy⟩
    have hx1 : x = env.goalX := hx
    have hy1 : y = env.goalY := hy
    subst hx1 hy1
    rw [hr1] at hc1
    cases hc1
    refine ⟨?_, ?_⟩
    · show countMarker g2 'G' = 0
      simp at e2
      omega
    · show readCell g2 env.goalX env.goalY = some 'A'
      rw [readCell_writeCell hg2]; simp

/-- Witness of C8, amended: the first tick on the fixed layout keeps the goal
marker. -/
theorem tick_goal_marker_witness :
    Rect world0.grid 7 10 ∧
      readCell world0.grid world0.agentX world0.agentY = some 'A' ∧
      countMarker world0.grid 'G' = 1 ∧
      readCell world0.grid world0.goalX world0.goalY = some 'G' ∧
      ∃ env1, tick zeroAgent world0 = some (decide (perceive zeroAgent world0), env1) ∧
        env1.goalX = world0.goalX ∧ env1.goalY = world0.goalY ∧
        (¬ (env1.agentX = world0.goalX ∧ env1.agentY = world0.goalY) →
          countMarker env1.grid 'G' = 1 ∧
            readCell env1.grid env1.goalX env1.goalY = some 'G') ∧
        ((env1.agentX = world0.goalX ∧ env1.agentY = world0.goalY) →
          countMarker env1.grid 'G' = 0 ∧
            readCell env1.grid env1.goalX env1.goalY = some 'A') :=
  ⟨by decide, by decide, by decide, by decide,
    tick_goal_marker world0 7 10 zeroAgent (by decide) (by decide) (by decide) (by decide)⟩

/-! ## The stall scenario -/

/-- C10 at its failing input: the world `stallWorld` is rectangular, its agent is off
the goal and the four neighbours of the agent are walls, yet the driver loop started
with an agent whose indeterminate fields are all zero performs no tick at all and
ends with `hasReachedGoal` true and the message of success, the agent still
enclosed at `(1, 1)`.  With an agent on which the first test fails the same world
gives the 100 ticks of `stall_runs_to_limit`. -/
theorem stall_exits_at_once_on_zero_agent :
    (Rect stallWorld.grid 3 5 ∧
      ¬ (stallWorld.agentX = stallWorld.goalX ∧ stallWorld.agentY = stallWorld.goalY) ∧
      Blocked stallWorld.grid (stallWorld.agentX + 1) stallWorld.agentY ∧
      Blocked stallWorld.grid (stallWorld.agentX - 1) stallWorld.agentY ∧
      Blocked stallWorld.grid stallWorld.agentX (stallWorld.agentY + 1) ∧
      Blocked stallWorld.grid stallWorld.agentX (stallWorld.agentY - 1)) ∧
      runFrom zeroAgent stallWorld =
        some { steps := 0, agent := zeroAgent, env := stallWorld } ∧
      hasReachedGoal zeroAgent = true ∧
      finalMessage { steps := 0, agent := zeroAgent, env := stallWorld } =
        "Goal reached in 0 steps!" ∧
      runFrom freshAgent stallWorld =
        some { steps := 100, agent := ⟨1, 1, 1, 3, 1, 2⟩, env := stallWorld } := by
  decide

/-! ## The run on the fixed layout -/

/-- Counterexample to C1: from the fixed layout the loop, started with an agent on
which the first test of `hasReachedGoal` fails, performs 100 ticks and ends with
`hasReachedGoal` false, the agent at `(4, 1)` and the goal at `(4, 8)`, with the
message of failure; started with an agent whose fields are all zero it performs
no tick and leaves the agent at `(1, 1)`. -/
theorem main_does_not_reach_goal :
    main freshAgent 0 0 0 0 = some stalledOutcome ∧
      hasReachedGoal stalledOutcome.agent = false ∧
      (stalledOutcome.env.agentX, stalledOutcome.env.agentY) = (4, 1) ∧
      (stalledOutcome.env.goalX, stalledOutcome.env.goalY) = (4, 8) ∧
      finalMessage stalledOutcome = "Agent could not reach the goal." ∧
      (main zeroAgent 0 0 0 0).map
        (fun o => (o.steps, o.env.agentX, o.env.agentY, o.env.goalX, o.env.goalY)) =
        some (0, 1, 1, 4, 8) := by
  decide

/-! ## Perception -/

/-- C9: for every world and every agent, after `perceive(world)` the method
`hasReachedGoal()` returns true if and only if the stored agent coordinates of the
world equal its stored goal coordinates. -/
theorem hasReachedGoal_perceive (a : Agent) (env : Environment) :
    hasReachedGoal (perceive a env) = true ↔
      (env.agentX = env.goalX ∧ env.agentY = env.goalY) := by
  simp [hasReachedGoal, perceive]

/-! ## Equality of grids, and the move onto the agent's own cell -/

/-- Two grids of the same shape with the same cells are equal. -/
theorem grid_ext {g1 g2 : Grid} (hs : g1.map List.length = g2.map List.length)
    (hr : ∀ x y : Int, readCell g1 x y = readCell g2 x y) : g1 = g2 := by
  have hlen : g1.length = g2.length := by simpa using congrArg List.length hs
  apply List.ext_getElem hlen
  intro n h1 h2
  have hln : g1[n].length = g2[n].length := by
    have e1 : (g1.map List.length)[n]? = some g1[n].length := by simp [h1]
    have e2 : (g2.map List.length)[n]? = some g2[n].length := by simp [h2]
    rw [hs, e2] at e1
    exact (Option.some.inj e1).symm
  apply List.ext_getElem hln
  intro m k1 k2
  have r1 : readCell g1 (n : Int) (m : Int) = some g1[n][m] :=
    readCell_eq_some.2 ⟨by omega, by omega, g1[n], by simp [h1], by simp [k1]⟩
  rw [hr] at r1
  obtain ⟨_, _, row, hrow, hcell⟩ := readCell_eq_some.1 r1
  simp only [Int.toNat_ofNat] at hrow hcell
  rw [List.getElem?_eq_getElem h2] at hrow
  cases Option.some.inj hrow
  rw [List.getElem?_eq_getElem k2] at hcell
  exact (Option.some.inj hcell).symm

/-- A move from the stored agent position, which holds the agent marker, onto itself
returns the world as it was. -/
theorem updateAgentPosition_self {env env1 : Environment}
    (hA : readCell env.grid env.agentX env.agentY = some 'A')
    (h : updateAgentPosition env env.agentX env.agentY env.agentX env.agentY = some env1) :
    env1 = env := by
  rcases updateAgentPosition_cases h with ⟨_, h1⟩ | ⟨_, g1, g2, hg1, hg2, h1⟩
  · exact h1
  · have hg : g2 = env.grid := by
      apply grid_ext
      · rw [writeCell_shape hg2, writeCell_shape hg1]
      · intro x y
        rw [readCell_writeCell hg2, readCell_writeCell hg1]
        by_cases hxy : x = env.agentX ∧ y = env.agentY
        · rw [if_pos hxy, hxy.1, hxy.2, hA]
        · rw [if_neg hxy, if_neg hxy]
    rw [h1, hg]

/-! ## The targets of a tick -/

/-- Whenever `act` returns a changed world, it made one call of `updateAgentPosition`
to the candidate or to one of the four guarded fallback positions. -/
theorem act_targets {a : Agent} {env env1 : Environment} (h : act a env = some env1) :
    env1 = env ∨ ∃ x y,
      ((x = a.nextX ∧ y = a.nextY) ∨
        (a.goalY > a.currentY ∧ x = a.currentX ∧ y = a.currentY + 1) ∨
        (a.goalY < a.currentY ∧ x = a.currentX ∧ y = a.currentY - 1) ∨
        (a.goalX > a.currentX ∧ x = a.currentX + 1 ∧ y = a.currentY) ∨
        (a.goalX < a.currentX ∧ x = a.currentX - 1 ∧ y = a.currentY)) ∧
      isValid env x y = some true ∧
      updateAgentPosition env a.currentX a.currentY x y = some env1 := by
  unfold act at h
  split at h
  · cases h
  · rename_i hv
    exact Or.inr ⟨_, _, Or.inl ⟨rfl, rfl⟩, hv, h⟩
  split at h
  · cases h
  · rename_i hv
    obtain ⟨hb, hv⟩ := guardValid_eq_true.1 hv
    exact Or.inr ⟨_, _, Or.inr (Or.inl ⟨by simpa using hb, rfl, rfl⟩), hv, h⟩
  split at h
  · cases h
  · rename_i hv
    obtain ⟨hb, hv⟩ := guardValid_eq_true.1 hv
    exact Or.inr ⟨_, _, Or.inr (Or.inr (Or.inl ⟨by simpa using hb, rfl, rfl⟩)), hv, h⟩
  split at h
  · cases h
  · rename_i hv
    obtain ⟨hb, hv⟩ := guardValid_eq_true.1 hv
    exact Or.inr ⟨_, _, Or.inr (Or.inr (Or.inr (Or.inl ⟨by simpa using hb, rfl, rfl⟩))), hv, h⟩
  split at h
  · cases h
  · rename_i hv
    obtain ⟨hb, hv⟩ := guardValid_eq_true.1 hv
    exact Or.inr ⟨_, _, Or.inr (Or.inr (Or.inr (Or.inr ⟨by simpa using hb, rfl, rfl⟩))), hv, h⟩
  · exact Or.inl (Option.some.inj h).symm

/-- The candidate computed after a perceive is one step toward the goal, or the
agent's own position when it is on the goal. -/
theorem decide_perceive_toward (a : Agent) (env : Environment) :
    Toward env (decide (perceive a env)).nextX (decide (perceive a env)).nextY := by
  unfold Toward decide perceive
  simp only
  split_ifs with h1 h2 h3 h4
  · exact Or.inl ⟨rfl, rfl, h1⟩
  · exact Or.inr (Or.inl ⟨rfl, rfl, h2⟩)
  · exact Or.inr (Or.inr (Or.inl ⟨rfl, rfl, h3⟩))
  · exact Or.inr (Or.inr (Or.inr (Or.inl ⟨rfl, rfl, h4⟩)))
  · exact Or.inr (Or.inr (Or.inr (Or.inr ⟨rfl, rfl, by omega, by omega⟩)))

/-- Whenever a tick returns a changed world, it moved the agent marker from the stored
agent position to a valid position one step toward the goal (or onto itself). -/
theorem tick_cases {a a1 : Agent} {env env1 : Environment}
    (h : tick a env = some (a1, env1)) :
    a1 = decide (perceive a env) ∧
      (env1 = env ∨ ∃ x y, Toward env x y ∧ isValid env x y = some true ∧
        updateAgentPosition env env.agentX env.agentY x y = some env1) := by
  obtain ⟨ha, hact⟩ := tick_eq_some h
  refine ⟨ha, ?_⟩
  have hc := decide_perceive_current a env
  have ht := decide_perceive_toward a env
  rcases act_targets hact with h0 | ⟨x, y, hxy, hv, hu⟩
  · exact Or.inl h0
  rw [hc.1, hc.2.1] at hu
  rw [hc.1, hc.2.1, hc.2.2.1, hc.2.2.2] at hxy
  refine Or.inr ⟨x, y, ?_, hv, hu⟩
  rcases hxy with ⟨rfl, rfl⟩ | ⟨hg, rfl, rfl⟩ | ⟨hg, rfl, rfl⟩ | ⟨hg, rfl, rfl⟩ | ⟨hg, rfl, rfl⟩
  · exact ht
  · exact Or.inr (Or.inr (Or.inl ⟨rfl, rfl, hg⟩))
  · exact Or.inr (Or.inr (Or.inr (Or.inl ⟨rfl, rfl, hg⟩)))
  · exact Or.inl ⟨rfl, rfl, hg⟩
  · exact Or.inr (Or.inl ⟨rfl, rfl, hg⟩)

/-- A tick never writes the stored goal coordinates. -/
theorem tick_goal {a a1 : Agent} {env env1 : Environment}
    (h : tick a env = some (a1, env1)) :
    env1.goalX = env.goalX ∧ env1.goalY = env.goalY := by
  rcases (tick_cases h).2 with h0 | ⟨x, y, _, _, hu⟩
  · rw [h0]; exact ⟨rfl, rfl⟩
  rcases updateAgentPosition_cases hu with ⟨_, h1⟩ | ⟨_, g1, g2, _, _, h1⟩
  · rw [h1]; exact ⟨rfl, rfl⟩
  · rw [h1]; exact ⟨rfl, rfl⟩

/-- A tick keeps the grid rectangular with the same numbers of rows and columns. -/
theorem tick_rect {a a1 : Agent} {env env1 : Environment} {R C : Nat}
    (h : tick a env = some (a1, env1)) (hr : Rect env.grid R C) : Rect env1.grid R C := by
  rcases (tick_cases h).2 with h0 | ⟨x, y, _, _, hu⟩
  · rw [h0]; exact hr
  rcases updateAgentPosition_cases hu with ⟨_, h1⟩ | ⟨_, g1, g2, hg1, hg2, h1⟩
  · rw [h1]; exact hr
  · rw [h1]; exact writeCell_rect hg2 (writeCell_rect hg1 hr)

/-- After a tick the stored agent position is a cell of the grid if it was one
before, and it holds the agent marker if it did before. -/
theorem tick_agent_cell {a a1 : Agent} {env env1 : Environment}
    (h : tick a env = some (a1, env1)) :
    ((readCell env.grid env.agentX env.agentY).isSome = true →
        (readCell env1.grid env1.agentX env1.agentY).isSome = true) ∧
      (readCell env.grid env.agentX env.agentY = some 'A' →
        readCell env1.grid env1.agentX env1.agentY = some 'A') := by
  rcases (tick_cases h).2 with h0 | ⟨x, y, _, _, hu⟩
  · rw [h0]; exact ⟨id, id⟩
  rcases updateAgentPosition_cases hu with ⟨_, h1⟩ | ⟨_, g1, g2, hg1, hg2, h1⟩
  · rw [h1]; exact ⟨id, id⟩
  · have hA : readCell env1.grid env1.agentX env1.agentY = some 'A' := by
      rw [h1]
      show readCell g2 x y = some 'A'
      rw [readCell_writeCell hg2]; simp
    exact ⟨fun _ => by rw [hA]; rfl, fun _ => hA⟩

/-- The shape of a tick in a rectangular world whose stored agent position holds the
agent marker: it returns, and either the world is unchanged or the marker has been
moved to a valid position one step toward the goal on one axis. -/
theorem tick_step {env : Environment} {R C : Nat} (hr : Rect env.grid R C)
    (hA : readCell env.grid env.agentX env.agentY = some 'A') (a : Agent) :
    ∃ env1, tick a env = some (decide (perceive a env), env1) ∧
      (env1 = env ∨ ∃ x y g1 g2,
        Toward env x y ∧ ¬ (x = env.agentX ∧ y = env.agentY) ∧
        isValid env x y = some true ∧
        writeCell env.grid env.agentX env.agentY ' ' = some g1 ∧
        writeCell g1 x y 'A' = some g2 ∧
        env1 = { env with grid := g2, agentX := x, agentY := y }) := by
  obtain ⟨env1, ht⟩ := tick_defined hr hA a
  refine ⟨env1, ht, ?_⟩
  rcases (tick_cases ht).2 with h0 | ⟨x, y, htow, hv, hu⟩
  · exact Or.inl h0
  by_cases hxy : x = env.agentX ∧ y = env.agentY
  · rw [hxy.1, hxy.2] at hu
    exact Or.inl (updateAgentPosition_self hA hu)
  rcases updateAgentPosition_cases hu with ⟨hf, _⟩ | ⟨_, g1, g2, hg1, hg2, h1⟩
  · rw [hv] at hf; cases hf
  · exact Or.inr ⟨x, y, g1, g2, htow, hxy, hv, hg1, hg2, h1⟩

/-- A step toward the goal that is not the stay case lowers the Manhattan distance by
exactly one, changes one coordinate by one, and moves away on no axis. -/
theorem toward_distance {env : Environment} {x y : Int} (ht : Toward env x y)
    (hne : ¬ (x = env.agentX ∧ y = env.agentY)) :
    (x - env.goalX).natAbs + (y - env.goalY).natAbs + 1 = manhattan env ∧
      (x - env.goalX).natAbs ≤ (env.agentX - env.goalX).natAbs ∧
      (y - env.goalY).natAbs ≤ (env.agentY - env.goalY).natAbs ∧
      ((y = env.agentY ∧ (x - env.agentX).natAbs = 1) ∨
        (x = env.agentX ∧ (y - env.agentY).natAbs = 1)) := by
  unfold manhattan
  rcases ht with ⟨rfl, rfl, h⟩ | ⟨rfl, rfl, h⟩ | ⟨rfl, rfl, h⟩ | ⟨rfl, rfl, h⟩ | ⟨rfl, rfl, _⟩
  · refine ⟨by omega, by omega, by omega, Or.inl ⟨rfl, by omega⟩⟩
  · refine ⟨by omega, by omega, by omega, Or.inl ⟨rfl, by omega⟩⟩
  · refine ⟨by omega, by omega, by omega, Or.inr ⟨rfl, by omega⟩⟩
  · refine ⟨by omega, by omega, by omega, Or.inr ⟨rfl, by omega⟩⟩
  · exact absurd ⟨rfl, rfl⟩ hne

/-! ## Bounds on the driver loop -/

/-- Whenever the loop returns, its step counter has grown by at most the number of
ticks it was allowed, and if it has grown by less the exit test succeeded. -/
theorem runLoop_steps (k : Nat) :
    ∀ (s : Nat) (a : Agent) (env : Environment) (o : Outcome),
      runLoop k s a env = some o →
        s ≤ o.steps ∧ o.steps ≤ s + k ∧ (o.steps < s + k → hasReachedGoal o.agent = true) := by
  induction k with
  | zero =>
    intro s a env o h
    simp only [runLoop, Option.some.injEq] at h
    subst h
    simp
  | succ n ih =>
    intro s a env o h
    unfold runLoop at h
    split at h
    · rename_i hreach
      simp only [Option.some.injEq] at h
      subst h
      exact ⟨le_refl _, by simp, fun _ => hreach⟩
    · split at h
      · cases h
      · rename_i a1 env1 _
        obtain ⟨h1, h2, h3⟩ := ih (s + 1) a1 env1 o h
        exact ⟨by omega, by omega, fun hlt => h3 (by omega)⟩

/-- On a rectangular grid, with the stored agent position a cell of the grid, the loop
performs no out-of-range access, however many ticks it is allowed. -/
theorem runLoop_defined {R C : Nat} (k : Nat) :
    ∀ (s : Nat) (a : Agent) (env : Environment), Rect env.grid R C →
      (readCell env.grid env.agentX env.agentY).isSome = true →
      ∃ o, runLoop k s a env = some o := by
  induction k with
  | zero => intro s a env _ _; exact ⟨_, rfl⟩
  | succ n ih =>
    intro s a env hr hin
    unfold runLoop
    split
    · exact ⟨_, rfl⟩
    · obtain ⟨c0, hc0⟩ := Option.isSome_iff_exists.1 hin
      obtain ⟨env1, ht⟩ := tick_defined hr hc0 a
      rw [ht]
      exact ih (s + 1) _ env1 (tick_rect ht hr) ((tick_agent_cell ht).1 hin)

theorem finalMessage_ne (n : Nat) :
    "Goal reached in " ++ toString n ++ " steps!" ≠ "Agent could not reach the goal." := by
  intro h
  have := congrArg String.data h
  simp [String.data_append] at this

/-! ## The claims on the driver loop, the constructor and the axis of a move -/

/-- C11: for every world and every initial agent, whenever the driver loop returns
its step counter is between 0 and 100, the final message is `Goal reached in N
steps!` with `N` the step counter exactly when `hasReachedGoal()` is true at exit
and `Agent could not reach the goal.` otherwise, and the loop has made fewer than
100 ticks only if `hasReachedGoal()` is true at exit; the loop is a total function,
and on a rectangular grid whose stored agent position is a cell of the grid it does
return (no tick makes an out-of-range access). -/
theorem driver_loop_outcome (env : Environment) (a0 : Agent) :
    (∀ o, runFrom a0 env = some o →
        0 ≤ o.steps ∧ o.steps ≤ 100 ∧
        (hasReachedGoal o.agent = true ↔
          finalMessage o = "Goal reached in " ++ toString o.steps ++ " steps!") ∧
        (hasReachedGoal o.agent = false ↔
          finalMessage o = "Agent could not reach the goal.") ∧
        (o.steps < 100 → hasReachedGoal o.agent = true)) ∧
      (∀ R C, Rect env.grid R C →
        (readCell env.grid env.agentX env.agentY).isSome = true →
        ∃ o, runFrom a0 env = some o) := by
  refine ⟨?_, ?_⟩
  · intro o h
    obtain ⟨_, h2, h3⟩ := runLoop_steps maxSteps 0 a0 env o h
    have hm : maxSteps = 100 := rfl
    refine ⟨Nat.zero_le _, by omega, ?_, ?_, fun hlt => h3 (by omega)⟩
    · unfold finalMessage
      cases hreach : hasReachedGoal o.agent
      · simp only [Bool.false_eq_true, if_false, false_iff]
        exact fun h => finalMessage_ne _ h.symm
      · simp
    · unfold finalMessage
      cases hreach : hasReachedGoal o.agent
      · simp
      · simp only [if_true, Bool.true_eq_false, false_iff]
        exact finalMessage_ne _
  · intro R C hr hin
    exact runLoop_defined maxSteps 0 a0 env hr hin

/-- C12: whatever the coordinate fields hold before the scan, the world built by the
constructor is a rectangular grid of 7 rows by 10 columns in which every border
cell (row 0, row 6, column 0, column 9) is a wall, exactly one cell holds the agent
marker and exactly one the goal marker, and the stored coordinates found by the
scan are agent `(1, 1)` and goal `(4, 8)`, the cells of the two markers, both valid
(not walls). -/
theorem init_layout (ax ay gx gy : Int) :
    Rect (Environment.init ax ay gx gy).grid 7 10 ∧
      (∀ r c : Int, 0 ≤ r → r ≤ 6 → 0 ≤ c → c ≤ 9 → (r = 0 ∨ r = 6 ∨ c = 0 ∨ c = 9) →
        readCell (Environment.init ax ay gx gy).grid r c = some '#') ∧
      countMarker (Environment.init ax ay gx gy).grid 'A' = 1 ∧
      countMarker (Environment.init ax ay gx gy).grid 'G' = 1 ∧
      (Environment.init ax ay gx gy).agentX = 1 ∧
      (Environment.init ax ay gx gy).agentY = 1 ∧
      (Environment.init ax ay gx gy).goalX = 4 ∧
      (Environment.init ax ay gx gy).goalY = 8 ∧
      readCell (Environment.init ax ay gx gy).grid 1 1 = some 'A' ∧
      readCell (Environment.init ax ay gx gy).grid 4 8 = some 'G' ∧
      isValid (Environment.init ax ay gx gy) 1 1 = some true ∧
      isValid (Environment.init ax ay gx gy) 4 8 = some true := by
  rw [init_eq]
  refine ⟨by decide, ?_, by decide, by decide, rfl, rfl, rfl, rfl, by decide, by decide,
    by decide, by decide⟩
  intro r c hr0 hr6 hc0 hc9 hb
  show readCell layout r c = some '#'
  interval_cases r <;> interval_cases c <;> first | rfl | omega

/-- C13: for all perceived current and goal positions (and whatever the other fields
hold), the candidate computed by `decide` is the current position, or differs from
it in the row only and by exactly 1, or differs from it in the column only and by
exactly 1. -/
theorem decide_one_axis (a : Agent) :
    ((decide a).nextX = a.currentX ∧ (decide a).nextY = a.currentY) ∨
      ((decide a).nextY = a.currentY ∧ ((decide a).nextX - a.currentX).natAbs = 1) ∨
      ((decide a).nextX = a.currentX ∧ ((decide a).nextY - a.currentY).natAbs = 1) := by
  unfold decide
  simp only
  split_ifs
  · right; left; simp
  · right; left; simp
  · right; right; simp
  · right; right; simp
  · left; simp

/-! ## The frame of a tick and its progress toward the goal -/

/-- C14: in a rectangular world whose stored agent position holds the agent marker, a
tick (perceive, decide, act with its fallback) returns; the stored agent position
changes in at most one coordinate and by exactly 1 when it changes; no cell changes
other than the cell the agent left, which becomes empty, and the cell it entered,
which becomes the agent marker; when the position is unchanged the whole world is;
no wall cell is changed and the grid keeps its dimensions. -/
theorem tick_frame (env : Environment) (R C : Nat) (a : Agent)
    (hr : Rect env.grid R C)
    (hA : readCell env.grid env.agentX env.agentY = some 'A') :
    ∃ env1, tick a env = some (decide (perceive a env), env1) ∧
      ((env1.agentX = env.agentX ∧ env1.agentY = env.agentY) ∨
        (env1.agentY = env.agentY ∧ (env1.agentX - env.agentX).natAbs = 1) ∨
        (env1.agentX = env.agentX ∧ (env1.agentY - env.agentY).natAbs = 1)) ∧
      (∀ x y, ¬ (x = env.agentX ∧ y = env.agentY) →
        ¬ (x = env1.agentX ∧ y = env1.agentY) →
        readCell env1.grid x y = readCell env.grid x y) ∧
      readCell env1.grid env1.agentX env1.agentY = some 'A' ∧
      (¬ (env1.agentX = env.agentX ∧ env1.agentY = env.agentY) →
        readCell env1.grid env.agentX env.agentY = some ' ') ∧
      ((env1.agentX = env.agentX ∧ env1.agentY = env.agentY) → env1 = env) ∧
      (∀ x y, readCell env.grid x y = some '#' → readCell env1.grid x y = some '#') ∧
      env1.grid.map List.length = env.grid.map List.length ∧
      Rect env1.grid R C := by
  obtain ⟨env1, ht, hcase⟩ := tick_step hr hA a
  refine ⟨env1, ht, ?_⟩
  rcases hcase with h0 | ⟨x, y, g1, g2, htow, hne, hv, hg1, hg2, h1⟩
  · subst h0
    exact ⟨Or.inl ⟨rfl, rfl⟩, fun _ _ _ _ => rfl, hA, fun h => absurd ⟨rfl, rfl⟩ h,
      fun _ => rfl, fun _ _ h => h, rfl, hr⟩
  subst h1
  obtain ⟨_, _, _, hax⟩ := toward_distance htow hne
  have hne1 : ¬ (env.agentX = x ∧ env.agentY = y) := fun h => hne ⟨h.1.symm, h.2.symm⟩
  refine ⟨Or.inr hax, ?_, ?_, ?_, fun h => absurd h hne, ?_, ?_, ?_⟩
  · intro x1 y1 n1 n2
    show readCell g2 x1 y1 = readCell env.grid x1 y1
    rw [readCell_writeCell hg2, if_neg n2, readCell_writeCell hg1, if_neg n1]
  · show readCell g2 x y = some 'A'
    rw [readCell_writeCell hg2]; simp
  · intro _
    show readCell g2 env.agentX env.agentY = some ' '
    rw [readCell_writeCell hg2, if_neg hne1, readCell_writeCell hg1]; simp
  · intro x1 y1 hw
    show readCell g2 x1 y1 = some '#'
    obtain ⟨ch, hch, hnw⟩ := readCell_of_isValid hv
    have n1 : ¬ (x1 = env.agentX ∧ y1 = env.agentY) := by
      rintro ⟨rfl, rfl⟩
      rw [hA] at hw
      simp at hw
    have n2 : ¬ (x1 = x ∧ y1 = y) := by
      rintro ⟨rfl, rfl⟩
      rw [hch] at hw
      exact hnw (Option.some.inj hw)
    rw [readCell_writeCell hg2, if_neg n2, readCell_writeCell hg1, if_neg n1]
    exact hw
  · show g2.map List.length = env.grid.map List.length
    rw [writeCell_shape hg2, writeCell_shape hg1]
  · exact writeCell_rect hg2 (writeCell_rect hg1 hr)

/-- Witness of C14: the first tick on the fixed layout. -/
theorem tick_frame_witness :
    Rect world0.grid 7 10 ∧
      readCell world0.grid world0.agentX world0.agentY = some 'A' ∧
      ∃ env1, tick zeroAgent world0 = some (decide (perceive zeroAgent world0), env1) ∧
        ((env1.agentX = world0.agentX ∧ env1.agentY = world0.agentY) ∨
          (env1.agentY = world0.agentY ∧ (env1.agentX - world0.agentX).natAbs = 1) ∨
          (env1.agentX = world0.agentX ∧ (env1.agentY - world0.agentY).natAbs = 1)) ∧
        (∀ x y, ¬ (x = world0.agentX ∧ y = world0.agentY) →
          ¬ (x = env1.agentX ∧ y = env1.agentY) →
          readCell env1.grid x y = readCell world0.grid x y) ∧
        readCell env1.grid env1.agentX env1.agentY = some 'A' ∧
        (¬ (env1.agentX = world0.agentX ∧ env1.agentY = world0.agentY) →
          readCell env1.grid world0.agentX world0.agentY = some ' ') ∧
        ((env1.agentX = world0.agentX ∧ env1.agentY = world0.agentY) → env1 = world0) ∧
        (∀ x y, readCell world0.grid x y = some '#' → readCell env1.grid x y = some '#') ∧
        env1.grid.map List.length = world0.grid.map List.length ∧
        Rect env1.grid 7 10 :=
  ⟨by decide, by decide, tick_frame world0 7 10 zeroAgent (by decide) (by decide)⟩

/-- C15: in a rectangular world whose stored agent position holds the agent marker, a
tick returns and either leaves the world unchanged or lowers the Manhattan distance
between agent and goal by exactly 1; on neither axis does the distance to the goal
grow. -/
theorem tick_progress (env : Environment) (R C : Nat) (a : Agent)
    (hr : Rect env.grid R C)
    (hA : readCell env.grid env.agentX env.agentY = some 'A') :
    ∃ env1, tick a env = some (decide (perceive a env), env1) ∧
      (env1 = env ∨ manhattan env1 + 1 = manhattan env) ∧
      (env1.agentX - env1.goalX).natAbs ≤ (env.agentX - env.goalX).natAbs ∧
      (env1.agentY - env1.goalY).natAbs ≤ (env.agentY - env.goalY).natAbs := by
  obtain ⟨env1, ht, hcase⟩ := tick_step hr hA a
  refine ⟨env1, ht, ?_⟩
  rcases hcase with h0 | ⟨x, y, g1, g2, htow, hne, _, _, _, h1⟩
  · subst h0
    exact ⟨Or.inl rfl, le_refl _, le_refl _⟩
  subst h1
  obtain ⟨hd, hx, hy, _⟩ := toward_distance htow hne
  exact ⟨Or.inr hd, hx, hy⟩

/-- Witness of C15: the first tick on the fixed layout. -/
theorem tick_progress_witness :
    Rect world0.grid 7 10 ∧
      readCell world0.grid world0.agentX world0.agentY = some 'A' ∧
      ∃ env1, tick zeroAgent world0 = some (decide (perceive zeroAgent world0), env1) ∧
        (env1 = world0 ∨ manhattan env1 + 1 = manhattan world0) ∧
        (env1.agentX - env1.goalX).natAbs ≤ (world0.agentX - world0.goalX).natAbs ∧
        (env1.agentY - env1.goalY).natAbs ≤ (world0.agentY - world0.goalY).natAbs :=
  ⟨by decide, by decide, tick_progress world0 7 10 zeroAgent (by decide) (by decide)⟩

/-! ## The row fallbacks are dead after `decide` -/

/-- After `decide`, a candidate that is not valid makes both row guards of `act`
fail: the row fallback would be the candidate itself, or its goal test is false. -/
theorem row_guards_fail (b : Agent) (env : Environment)
    (h0 : isValid env (decide b).nextX (decide b).nextY = some false) :
    guardValid ((decide b).goalX > (decide b).currentX) env
        ((decide b).currentX + 1) (decide b).currentY = some false ∧
      guardValid ((decide b).goalX < (decide b).currentX) env
        ((decide b).currentX - 1) (decide b).currentY = some false := by
  unfold decide at h0 ⊢
  simp only at h0 ⊢
  split_ifs at h0 ⊢ with h1 h2 h3 h4
  · have n2 : ¬ b.goalX < b.currentX := by omega
    simp [guardValid, h1, n2, h0]
  · simp [guardValid, h1, h2, h0]
  · simp [guardValid, h1, h2]
  · simp [guardValid, h1, h2]
  · simp [guardValid, h1, h2]

/-- After `decide`, a column guard of `act` can only succeed beside an invalid
candidate when the goal row differs from the current row. -/
theorem column_fallback_row_differs (b : Agent) (env : Environment)
    (h0 : isValid env (decide b).nextX (decide b).nextY = some false)
    (hc : guardValid ((decide b).goalY > (decide b).currentY) env
          (decide b).currentX ((decide b).currentY + 1) = some true ∨
        guardValid ((decide b).goalY < (decide b).currentY) env
          (decide b).currentX ((decide b).currentY - 1) = some true) :
    (decide b).goalX ≠ (decide b).currentX := by
  unfold decide at h0 hc ⊢
  simp only at h0 hc ⊢
  split_ifs at h0 hc ⊢ with h1 h2 h3 h4
  · simp only; omega
  · simp only; omega
  · exfalso
    have n4 : ¬ b.goalY < b.currentY := by omega
    simp [guardValid, h3, n4, h0] at hc
  · exfalso
    simp [guardValid, h3, h4, h0] at hc
  · exfalso
    simp [guardValid, h3, h4] at hc

/-- C17: for every world and every agent, `act` run on the result of `decide` equals
the simpler policy `try the candidate, else one column step toward the goal, else
stay`, and so a tick is perceive, decide and that policy; when the candidate is
not valid both row guards of `act` fail, so the row fallback branches are never
taken and the agent moves one column toward the goal or not at all; and a column
fallback is only taken when the goal row differs from the current row. -/
theorem act_after_decide_is_column_policy (b : Agent) (env : Environment) :
    act (decide b) env = actColumnPolicy (decide b) env ∧
      tick b env =
        (actColumnPolicy (decide (perceive b env)) env).map
          (fun e => (decide (perceive b env), e)) ∧
      (isValid env (decide b).nextX (decide b).nextY = some false →
        guardValid ((decide b).goalX > (decide b).currentX) env
            ((decide b).currentX + 1) (decide b).currentY = some false ∧
          guardValid ((decide b).goalX < (decide b).currentX) env
            ((decide b).currentX - 1) (decide b).currentY = some false) ∧
      (isValid env (decide b).nextX (decide b).nextY = some false →
        ∀ env1, act (decide b) env = some env1 →
          env1 = env ∨
            ((decide b).goalY > (decide b).currentY ∧
              updateAgentPosition env (decide b).currentX (decide b).currentY
                (decide b).currentX ((decide b).currentY + 1) = some env1) ∨
            ((decide b).goalY < (decide b).currentY ∧
              updateAgentPosition env (decide b).currentX (decide b).currentY
                (decide b).currentX ((decide b).currentY - 1) = some env1)) ∧
      (isValid env (decide b).nextX (decide b).nextY = some false →
        (guardValid ((decide b).goalY > (decide b).currentY) env
            (decide b).currentX ((decide b).currentY + 1) = some true ∨
          guardValid ((decide b).goalY < (decide b).currentY) env
            (decide b).currentX ((decide b).currentY - 1) = some true) →
        (decide b).goalX ≠ (decide b).currentX) := by
  have hpol : ∀ c : Agent, act (decide c) env = actColumnPolicy (decide c) env := by
    intro c
    cases h0 : isValid env (decide c).nextX (decide c).nextY with
    | none => simp [act, actColumnPolicy, h0]
    | some v =>
      cases v with
      | true => simp [act, actColumnPolicy, h0]
      | false =>
        obtain ⟨r1, r2⟩ := row_guards_fail c env h0
        unfold act actColumnPolicy
        simp only [h0, r1, r2]
  refine ⟨hpol b, ?_, row_guards_fail b env, ?_, column_fallback_row_differs b env⟩
  · unfold tick
    simp only
    rw [hpol (perceive b env)]
    cases actColumnPolicy (decide (perceive b env)) env <;> rfl
  · intro h0 env1 h
    rw [hpol b] at h
    unfold actColumnPolicy at h
    simp only [h0] at h
    split at h
    · cases h
    · rename_i hv
      have hb := (guardValid_eq_true.1 hv).1
      exact Or.inr (Or.inl ⟨by simpa using hb, h⟩)
    · split at h
      · cases h
      · rename_i hv
        have hb := (guardValid_eq_true.1 hv).1
        exact Or.inr (Or.inr ⟨by simpa using hb, h⟩)
      · exact Or.inl (Option.some.inj h).symm

/-! ## Runs of several ticks -/

theorem onGoalAfter_zero (a : Agent) (env : Environment) :
    onGoalAfter 0 a env = some (onGoal env) := rfl

theorem iterTick_succ {a a1 : Agent} {env env1 : Environment}
    (h : tick a env = some (a1, env1)) (n : Nat) :
    iterTick (n + 1) a env = iterTick n a1 env1 := by
  simp [iterTick, h]

theorem onGoalAfter_succ {a a1 : Agent} {env env1 : Environment}
    (h : tick a env = some (a1, env1)) (n : Nat) :
    onGoalAfter (n + 1) a env = onGoalAfter n a1 env1 := by
  unfold onGoalAfter
  rw [iterTick_succ h]

/-- A tick that returns the world it was given does so for every agent. -/
theorem tick_fixed_all {a a1 : Agent} {env : Environment}
    (h : tick a env = some (a1, env)) (b : Agent) :
    tick b env = some (decide (perceive b env), env) := by
  rw [tick_indep b a env, h, (tick_eq_some h).1, decide_perceive_indep a b env]

/-- A world that a tick leaves unchanged is left unchanged by any number of ticks. -/
theorem iterTick_fixed {env : Environment}
    (h : ∀ b, tick b env = some (decide (perceive b env), env)) (n : Nat) :
    ∀ a, ∃ a1, iterTick n a env = some (a1, env) := by
  induction n with
  | zero => intro a; exact ⟨a, rfl⟩
  | succ k ih =>
    intro a
    rw [iterTick_succ (h a)]
    exact ih _

theorem onGoalAfter_fixed {env : Environment}
    (h : ∀ b, tick b env = some (decide (perceive b env), env)) (n : Nat) (a : Agent) :
    onGoalAfter n a env = some (onGoal env) := by
  obtain ⟨a1, h1⟩ := iterTick_fixed h n a
  simp [onGoalAfter, h1]

theorem manhattan_eq_zero (env : Environment) : manhattan env = 0 ↔ onGoal env = true := by
  unfold manhattan onGoal
  simp only [Bool.and_eq_true, beq_iff_eq]
  omega

/-- The step of the induction on the distance: a tick in a rectangular world whose
agent cell holds the marker returns a world of the same kind, unchanged or one
step nearer to the goal. -/
theorem tick_step_distance {env : Environment} {R C : Nat} (hr : Rect env.grid R C)
    (hA : readCell env.grid env.agentX env.agentY = some 'A') (a : Agent) :
    ∃ env1, tick a env = some (decide (perceive a env), env1) ∧
      Rect env1.grid R C ∧ readCell env1.grid env1.agentX env1.agentY = some 'A' ∧
      (env1 = env ∨ manhattan env1 + 1 = manhattan env) := by
  obtain ⟨env1, ht, hcase⟩ := tick_step hr hA a
  refine ⟨env1, ht, tick_rect ht hr, (tick_agent_cell ht).2 hA, ?_⟩
  rcases hcase with h0 | ⟨x, y, g1, g2, htow, hne, _, _, _, h1⟩
  · exact Or.inl h0
  · subst h1
    exact Or.inr (toward_distance htow hne).1

/-- The agent is on the goal after `n` ticks exactly when `n` is at least the distance
`d` and it is on the goal after `d` ticks. -/
theorem arrival_aux {R C : Nat} (d : Nat) :
    ∀ env : Environment, manhattan env = d → Rect env.grid R C →
      readCell env.grid env.agentX env.agentY = some 'A' →
      ∀ (n : Nat) (a : Agent),
        (∃ v, onGoalAfter n a env = some v) ∧
          (onGoalAfter n a env = some true ↔
            d ≤ n ∧ onGoalAfter d a env = some true) := by
  induction d with
  | zero =>
    intro env hd hr hA n a
    have hon : onGoal env = true := (manhattan_eq_zero env).1 hd
    obtain ⟨env1, ht, _, _, hcase⟩ := tick_step_distance hr hA a
    have hfix : env1 = env := by
      rcases hcase with h | h
      · exact h
      · omega
    rw [hfix] at ht
    have hall := tick_fixed_all ht
    refine ⟨⟨_, onGoalAfter_fixed hall n a⟩, ?_⟩
    rw [onGoalAfter_fixed hall n a, onGoalAfter_zero, hon]
    simp
  | succ k ih =>
    intro env hd hr hA n a
    have hoff : onGoal env = false := by
      cases h : onGoal env
      · rfl
      · have := (manhattan_eq_zero env).2 h
        omega
    obtain ⟨env1, ht, hr1, hA1, hcase⟩ := tick_step_distance hr hA a
    rcases hcase with hfix | hdist
    · rw [hfix] at ht
      have hall := tick_fixed_all ht
      refine ⟨⟨_, onGoalAfter_fixed hall n a⟩, ?_⟩
      rw [onGoalAfter_fixed hall n a, onGoalAfter_fixed hall (k + 1) a, hoff]
      simp
    · have hd1 : manhattan env1 = k := by omega
      cases n with
      | zero =>
        refine ⟨⟨_, onGoalAfter_zero a env⟩, ?_⟩
        rw [onGoalAfter_zero, hoff]
        simp
      | succ m =>
        obtain ⟨hdef, hiff⟩ := ih env1 hd1 hr1 hA1 m (decide (perceive a env))
        rw [onGoalAfter_succ ht m, onGoalAfter_succ ht k]
        refine ⟨hdef, ?_⟩
        rw [hiff]
        constructor
        · rintro ⟨h1, h2⟩; exact ⟨by omega, h2⟩
        · rintro ⟨h1, h2⟩; exact ⟨by omega, h2⟩

/-- C16: in a rectangular world whose stored agent position holds the agent marker,
with `d` the Manhattan distance between agent and goal, any number `n` of ticks
returns, and the agent is on the goal after `n` ticks if and only if `n >= d` and it
is on the goal after exactly `d` ticks; and a tick that leaves the agent where it
was, off the goal, is permanent: any number of further ticks returns the same world
and the agent is never on the goal. -/
theorem arrival_exactly_at_distance (env : Environment) (R C : Nat) (a : Agent) (n : Nat)
    (hr : Rect env.grid R C)
    (hA : readCell env.grid env.agentX env.agentY = some 'A') :
    (∃ v, onGoalAfter n a env = some v) ∧
      (onGoalAfter n a env = some true ↔
        manhattan env ≤ n ∧ onGoalAfter (manhattan env) a env = some true) ∧
      (∀ a1 env1, tick a env = some (a1, env1) → onGoal env = false →
        (env1.agentX = env.agentX ∧ env1.agentY = env.agentY) →
        ∀ m b, (∃ b1, iterTick m b env = some (b1, env)) ∧
          onGoalAfter m b env = some false) := by
  obtain ⟨h1, h2⟩ := arrival_aux (manhattan env) env rfl hr hA n a
  refine ⟨h1, h2, ?_⟩
  intro a1 env1 ht hoff hsame m b
  obtain ⟨env2, ht2, hcase⟩ := tick_step hr hA a
  rw [ht] at ht2
  have he : env1 = env2 := congrArg Prod.snd (Option.some.inj ht2)
  have hfix : env1 = env := by
    rcases hcase with h0 | ⟨x, y, g1, g2, _, hne, _, _, _, h3⟩
    · rw [he, h0]
    · exfalso
      rw [he, h3] at hsame
      exact hne hsame
  rw [hfix] at ht
  have hall := tick_fixed_all ht
  refine ⟨iterTick_fixed hall m b, ?_⟩
  rw [onGoalAfter_fixed hall m b, hoff]

/-- Witness of C16: in the world with the agent next to the goal the distance is 1, the
agent is on the goal after 1 tick, hence after 3 ticks. -/
theorem arrival_exactly_at_distance_witness :
    Rect adjacentWorld.grid 3 4 ∧
      readCell adjacentWorld.grid adjacentWorld.agentX adjacentWorld.agentY = some 'A' ∧
      manhattan adjacentWorld = 1 ∧
      onGoalAfter 3 zeroAgent adjacentWorld = some true :=
  ⟨by decide, by decide, by decide,
    (arrival_exactly_at_distance adjacentWorld 3 4 zeroAgent 3 (by decide)
      (by decide)).2.1.2 ⟨by decide, by decide⟩⟩

/-! ## The loop against the run of ticks -/

theorem hasReachedGoal_decide_perceive (a : Agent) (env : Environment) :
    hasReachedGoal (decide (perceive a env)) = onGoal env := by
  have hc := decide_perceive_current a env
  simp only [hasReachedGoal, onGoal, hc.1, hc.2.1, hc.2.2.1, hc.2.2.2]

/-- The last of `n + 1` ticks is a tick from the state after `n` ticks. -/
theorem iterTick_succ_last (n : Nat) :
    ∀ (a : Agent) (env : Environment) (p : Agent × Environment),
      iterTick (n + 1) a env = some p →
        ∃ an en, iterTick n a env = some (an, en) ∧ tick an en = some p := by
  induction n with
  | zero =>
    intro a env p h
    unfold iterTick at h
    split at h
    · cases h
    · rename_i a1 e1 ht
      simp only [iterTick] at h
      exact ⟨a, env, rfl, by rw [ht, h]⟩
  | succ k ih =>
    intro a env p h
    unfold iterTick at h
    split at h
    · cases h
    · rename_i a1 e1 ht
      obtain ⟨an, en, h1, h2⟩ := ih a1 e1 p h
      exact ⟨an, en, by rw [iterTick_succ ht]; exact h1, h2⟩

/-- One more tick after `n` ticks is `n + 1` ticks. -/
theorem iterTick_snoc (n : Nat) :
    ∀ (a an : Agent) (env en : Environment) (p : Agent × Environment),
      iterTick n a env = some (an, en) → tick an en = some p →
        iterTick (n + 1) a env = some p := by
  induction n with
  | zero =>
    intro a an env en p h ht
    simp only [iterTick, Option.some.injEq, Prod.mk.injEq] at h
    obtain ⟨rfl, rfl⟩ := h
    obtain ⟨a1, e1⟩ := p
    rw [iterTick_succ ht]
    rfl
  | succ k ih =>
    intro a an env en p h ht
    unfold iterTick at h
    split at h
    · cases h
    · rename_i a1 e1 ht1
      rw [iterTick_succ ht1]
      exact ih a1 an e1 en p h ht

theorem iterTick_rect {R C : Nat} (n : Nat) :
    ∀ (a an : Agent) (env en : Environment),
      iterTick n a env = some (an, en) → Rect env.grid R C → Rect en.grid R C := by
  induction n with
  | zero =>
    intro a an env en h hr
    simp only [iterTick, Option.some.injEq, Prod.mk.injEq] at h
    rw [← h.2]; exact hr
  | succ k ih =>
    intro a an env en h hr
    unfold iterTick at h
    split at h
    · cases h
    · rename_i a1 e1 ht1
      exact ih a1 an e1 en h (tick_rect ht1 hr)

/-- While the exit test fails on the agents met, the loop performs the ticks of
`iterTick`. -/
theorem runLoop_skip (m : Nat) :
    ∀ (rem s : Nat) (a a1 : Agent) (env env1 : Environment),
      iterTick m a env = some (a1, env1) →
      (∀ j, j < m → ∃ aj ej, iterTick j a env = some (aj, ej) ∧ hasReachedGoal aj = false) →
      runLoop (rem + m) s a env = runLoop rem (s + m) a1 env1 := by
  induction m with
  | zero =>
    intro rem s a a1 env env1 h _
    simp only [iterTick, Option.some.injEq, Prod.mk.injEq] at h
    rw [h.1, h.2]
    rfl
  | succ k ih =>
    intro rem s a a1 env env1 h hun
    obtain ⟨b0, e0, hb0, hnr⟩ := hun 0 (Nat.succ_pos k)
    simp only [iterTick, Option.some.injEq, Prod.mk.injEq] at hb0
    rw [← hb0.1] at hnr
    unfold iterTick at h
    split at h
    · cases h
    · rename_i a2 e2 ht
      have hstep : runLoop (rem + (k + 1)) s a env = runLoop (rem + k) (s + 1) a2 e2 := by
        show runLoop (rem + k + 1) s a env = _
        simp [runLoop, hnr, ht]
      rw [hstep, ih rem (s + 1) a2 a1 e2 env1 h]
      · congr 1
        omega
      · intro j hj
        obtain ⟨aj, ej, h1, h2⟩ := hun (j + 1) (by omega)
        rw [iterTick_succ ht] at h1
        exact ⟨aj, ej, h1, h2⟩

theorem runLoop_reached (rem s : Nat) (a : Agent) (env : Environment)
    (h : hasReachedGoal a = true) :
    runLoop rem s a env = some { steps := s, agent := a, env := env } := by
  cases rem with
  | zero => rfl
  | succ k => simp [runLoop, h]

/-- A tick that changes the stored agent position leaves the agent marker on the new
position. -/
theorem tick_moved_marker {a a1 : Agent} {env env1 : Environment}
    (h : tick a env = some (a1, env1))
    (hm : ¬ (env1.agentX = env.agentX ∧ env1.agentY = env.agentY)) :
    readCell env1.grid env1.agentX env1.agentY = some 'A' := by
  rcases (tick_cases h).2 with h0 | ⟨x, y, _, _, hu⟩
  · rw [h0] at hm; exact absurd ⟨rfl, rfl⟩ hm
  rcases updateAgentPosition_cases hu with ⟨_, h1⟩ | ⟨_, g1, g2, hg1, hg2, h1⟩
  · rw [h1] at hm; exact absurd ⟨rfl, rfl⟩ hm
  · rw [h1]
    show readCell g2 x y = some 'A'
    rw [readCell_writeCell hg2]; simp

/-- In a rectangular world whose agent stands on the goal, on a cell holding the
agent marker, a tick returns the world unchanged. -/
theorem tick_on_goal {env : Environment} {R C : Nat} (hr : Rect env.grid R C)
    (hA : readCell env.grid env.agentX env.agentY = some 'A') (hon : onGoal env = true)
    (a : Agent) : tick a env = some (decide (perceive a env), env) := by
  obtain ⟨env1, ht, hcase⟩ := tick_step hr hA a
  rcases hcase with h0 | ⟨x, y, g1, g2, htow, hne, _, _, _, _⟩
  · rw [h0] at ht; exact ht
  · exfalso
    simp only [onGoal, Bool.and_eq_true, beq_iff_eq] at hon
    unfold Toward at htow
    rcases htow with ⟨_, _, h⟩ | ⟨_, _, h⟩ | ⟨_, _, h⟩ | ⟨_, _, h⟩ | ⟨h1, h2, _⟩
    · omega
    · omega
    · omega
    · omega
    · exact hne ⟨h1, h2⟩

theorem onGoalAfter_eq_some {n : Nat} {a : Agent} {env : Environment} {v : Bool}
    (h : onGoalAfter n a env = some v) :
    ∃ an en, iterTick n a env = some (an, en) ∧ onGoal en = v := by
  unfold onGoalAfter at h
  cases hit : iterTick n a env with
  | none => rw [hit] at h; cases h
  | some p =>
    rw [hit] at h
    exact ⟨p.1, p.2, rfl, Option.some.inj h⟩

/-- While the agent has not been on the goal after any of the first `k` runs of ticks,
the exit test fails on the initial agent and on the agents after `1, ..., k` ticks. -/
theorem agents_unreached {a0 : Agent} {env : Environment} {k : Nat}
    (h0 : hasReachedGoal a0 = false)
    (hfirst : ∀ j, j < k → onGoalAfter j a0 env = some false) :
    ∀ i, i < k + 1 → ∀ ai ei, iterTick i a0 env = some (ai, ei) →
      hasReachedGoal ai = false := by
  intro i hi ai ei hit
  cases i with
  | zero =>
    simp only [iterTick, Option.some.injEq, Prod.mk.injEq] at hit
    rw [← hit.1]; exact h0
  | succ j =>
    obtain ⟨an, en, hn, ht⟩ := iterTick_succ_last j a0 env (ai, ei) hit
    obtain ⟨an1, en1, hn1, hoff⟩ := onGoalAfter_eq_some (hfirst j (by omega))
    rw [hn] at hn1
    simp only [Option.some.injEq, Prod.mk.injEq] at hn1
    rw [(tick_eq_some ht).1, hasReachedGoal_decide_perceive, hn1.2]
    exact hoff

/-! ## Arrival is seen one tick late -/

/-- C18: in a rectangular world, let the agent's stored position equal the goal position
after `k` ticks and after no fewer, with `k >= 1`, and let the initial agent fields
not satisfy `hasReachedGoal()`.  Then the tick after the arrival leaves the world
unchanged; if `k + 1 <= 100` the loop runs exactly `k + 1` ticks, ends with
`hasReachedGoal()` true and reports `k + 1` steps; if `k = 100` the loop ends after
its 100 ticks with `hasReachedGoal()` false and the message of failure although
the agent is on the goal. -/
theorem arrival_seen_one_tick_late (env : Environment) (R C : Nat) (a0 : Agent) (k : Nat)
    (hr : Rect env.grid R C) (h0 : hasReachedGoal a0 = false) (hk : 1 ≤ k)
    (harr : onGoalAfter k a0 env = some true)
    (hfirst : ∀ j, j < k → onGoalAfter j a0 env = some false) :
    ∃ ak ek, iterTick k a0 env = some (ak, ek) ∧ onGoal ek = true ∧
      tick ak ek = some (decide (perceive ak ek), ek) ∧
      (k + 1 ≤ 100 →
        runFrom a0 env =
            some { steps := k + 1, agent := decide (perceive ak ek), env := ek } ∧
          hasReachedGoal (decide (perceive ak ek)) = true ∧
          finalMessage { steps := k + 1, agent := decide (perceive ak ek), env := ek } =
            "Goal reached in " ++ toString (k + 1) ++ " steps!") ∧
      (k = 100 →
        runFrom a0 env = some { steps := 100, agent := ak, env := ek } ∧
          hasReachedGoal ak = false ∧
          finalMessage { steps := 100, agent := ak, env := ek } =
            "Agent could not reach the goal.") := by
  obtain ⟨ak, ek, hit, hon⟩ := onGoalAfter_eq_some harr
  obtain ⟨j, rfl⟩ : ∃ j, k = j + 1 := ⟨k - 1, by omega⟩
  obtain ⟨ap, ep, hp, htk⟩ := iterTick_succ_last j a0 env (ak, ek) hit
  obtain ⟨ap1, ep1, hp1, hoff⟩ := onGoalAfter_eq_some (hfirst j (by omega))
  rw [hp] at hp1
  simp only [Option.some.injEq, Prod.mk.injEq] at hp1
  rw [← hp1.2] at hoff
  have hrk : Rect ek.grid R C := iterTick_rect (j + 1) a0 ak env ek hit hr
  have hg := tick_goal htk
  have hmoved : ¬ (ek.agentX = ep.agentX ∧ ek.agentY = ep.agentY) := by
    rintro ⟨hx, hy⟩
    simp only [onGoal, hx, hy, hg.1, hg.2] at hon
    simp only [onGoal] at hoff
    rw [hon] at hoff
    cases hoff
  have hA := tick_moved_marker htk hmoved
  have hextra := tick_on_goal hrk hA hon ak
  have hnext := iterTick_snoc (j + 1) a0 ak env ek _ hit hextra
  have hun := agents_unreached h0 hfirst
  have hreach : hasReachedGoal (decide (perceive ak ek)) = true := by
    rw [hasReachedGoal_decide_perceive]; exact hon
  have hlast : hasReachedGoal ak = false := hun (j + 1) (by omega) ak ek hit
  have hdef : ∀ i, i < j + 1 + 1 → ∃ ai ei, iterTick i a0 env = some (ai, ei) ∧
      hasReachedGoal ai = false := by
    intro i hi
    by_cases hik : i = j + 1
    · subst hik
      exact ⟨ak, ek, hit, hlast⟩
    · obtain ⟨ai, ei, h1, _⟩ := onGoalAfter_eq_some (hfirst i (by omega))
      exact ⟨ai, ei, h1, hun i (by omega) ai ei h1⟩
  refine ⟨ak, ek, hit, hon, hextra, ?_, ?_⟩
  · intro hle
    have hrun : runFrom a0 env =
        some { steps := j + 1 + 1, agent := decide (perceive ak ek), env := ek } := by
      unfold runFrom maxSteps
      have h100 : 100 = (100 - (j + 1 + 1)) + (j + 1 + 1) := by omega
      rw [h100, runLoop_skip (j + 1 + 1) _ 0 a0 _ env ek hnext hdef,
        runLoop_reached _ _ _ _ hreach, Nat.zero_add]
    refine ⟨hrun, hreach, ?_⟩
    simp [finalMessage, hreach]
  · intro h100
    have hj : j = 99 := by omega
    subst hj
    have hrun : runFrom a0 env = some { steps := 100, agent := ak, env := ek } := by
      unfold runFrom maxSteps
      have hskip := runLoop_skip 100 0 0 a0 ak env ek hit (fun i hi => hdef i (by omega))
      rw [Nat.zero_add] at hskip
      rw [hskip]
      rfl
    refine ⟨hrun, hlast, ?_⟩
    simp [finalMessage, hlast]

set_option maxRecDepth 100000 in
/-- Witness of C18: in the world with the agent next to the goal the agent arrives on
tick 1, and the loop, started with an agent on which the first test fails, runs 2
ticks and reports 2 steps; in the corridor of 101 cells the agent arrives on tick
100, and the loop ends after 100 ticks with `hasReachedGoal()` false, the agent on
the goal. -/
theorem arrival_seen_one_tick_late_witness :
    (Rect adjacentWorld.grid 3 4 ∧ hasReachedGoal freshAgent = false ∧
        onGoalAfter 1 freshAgent adjacentWorld = some true ∧
        (∀ j, j < 1 → onGoalAfter j freshAgent adjacentWorld = some false)) ∧
      (∃ o, runFrom freshAgent adjacentWorld = some o ∧ o.steps = 2 ∧
        hasReachedGoal o.agent = true ∧ onGoal o.env = true ∧
        finalMessage o = "Goal reached in 2 steps!") ∧
      (Rect corridorWorld.grid 1 101 ∧
        onGoalAfter 100 freshAgent corridorWorld = some true ∧
        (∀ j, j < 100 → onGoalAfter j freshAgent corridorWorld = some false)) ∧
      (∃ o, runFrom freshAgent corridorWorld = some o ∧ o.steps = 100 ∧
        hasReachedGoal o.agent = false ∧ onGoal o.env = true ∧
        finalMessage o = "Agent could not reach the goal.") := by
  have r1 : Rect adjacentWorld.grid 3 4 := by decide
  have f0 : hasReachedGoal freshAgent = false := by decide
  have a1 : onGoalAfter 1 freshAgent adjacentWorld = some true := by decide
  have n1 : ∀ j, j < 1 → onGoalAfter j freshAgent adjacentWorld = some false := by decide
  have r2 : Rect corridorWorld.grid 1 101 := by decide
  have a2 : onGoalAfter 100 freshAgent corridorWorld = some true := by decide
  have n2 : ∀ j, j < 100 → onGoalAfter j freshAgent corridorWorld = some false := by decide
  refine ⟨⟨r1, f0, a1, n1⟩, ?_, ⟨r2, a2, n2⟩, ?_⟩
  · obtain ⟨ak, ek, _, hon, _, h, _⟩ :=
      arrival_seen_one_tick_late adjacentWorld 3 4 freshAgent 1 r1 f0 (by decide) a1 n1
    obtain ⟨hrun, hreach, hmsg⟩ := h (by decide)
    exact ⟨_, hrun, rfl, hreach, hon, hmsg⟩
  · obtain ⟨ak, ek, _, hon, _, _, h⟩ :=
      arrival_seen_one_tick_late corridorWorld 1 101 freshAgent 100 r2 f0 (by decide) a2 n2
    obtain ⟨hrun, hlast, hmsg⟩ := h rfl
    exact ⟨_, hrun, rfl, hlast, hon, hmsg⟩

/-! ## Indices stay in range -/

/-- On a rectangular grid, with the stored agent position a cell of the grid, any
number of ticks performs no out-of-range access. -/
theorem iterTick_defined {R C : Nat} (n : Nat) :
    ∀ (a : Agent) (env : Environment), Rect env.grid R C →
      (readCell env.grid env.agentX env.agentY).isSome = true →
      ∃ p, iterTick n a env = some p := by
  induction n with
  | zero => intro a env _ _; exact ⟨_, rfl⟩
  | succ k ih =>
    intro a env hr hin
    obtain ⟨c0, hc0⟩ := Option.isSome_iff_exists.1 hin
    obtain ⟨env1, ht⟩ := tick_defined hr hc0 a
    rw [iterTick_succ ht]
    exact ih _ env1 (tick_rect ht hr) ((tick_agent_cell ht).1 hin)

/-- Counterexample to C19: the world `wallWorld` is rectangular and not empty and its
stored agent coordinates `(0, 0)` are in bounds, but that cell is a wall and so
are the two neighbours toward the goal; the tick moves nothing and the stored
agent coordinates are on a wall cell after it. -/
theorem agent_left_on_wall :
    Rect wallWorld.grid 2 2 ∧
      (0 ≤ wallWorld.agentX ∧ wallWorld.agentX < 2 ∧
        0 ≤ wallWorld.agentY ∧ wallWorld.agentY < 2) ∧
      (tick zeroAgent wallWorld).map
          (fun p => (p.2.agentX, p.2.agentY, readCell p.2.grid p.2.agentX p.2.agentY)) =
        some (0, 0, some '#') := by
  decide

/-- C19, amended: in a rectangular world whose stored agent coordinates are in bounds, a
tick returns, that is, every grid read (in `isValid`) and write (in
`updateAgentPosition`) it performs is at an in-bounds index; after it the grid has
the same dimensions and the stored agent coordinates are again in bounds, and
they are on a non-wall cell whenever the tick moved the agent or the agent was on a
non-wall cell before.  Hence from the fixed layout any number of ticks, and the
driver loop itself, perform no out-of-range access. -/
theorem tick_in_bounds (env : Environment) (R C : Nat) (a : Agent)
    (hr : Rect env.grid R C)
    (hin : 0 ≤ env.agentX ∧ env.agentX < R ∧ 0 ≤ env.agentY ∧ env.agentY < C) :
    (∃ env1, tick a env = some (decide (perceive a env), env1) ∧
        Rect env1.grid R C ∧
        (0 ≤ env1.agentX ∧ env1.agentX < R ∧ 0 ≤ env1.agentY ∧ env1.agentY < C) ∧
        ((¬ (env1.agentX = env.agentX ∧ env1.agentY = env.agentY) ∨
            readCell env.grid env.agentX env.agentY ≠ some '#') →
          readCell env1.grid env1.agentX env1.agentY ≠ some '#')) ∧
      (∀ (n : Nat) (b : Agent) (ax ay gx gy : Int),
        ∃ p, iterTick n b (Environment.init ax ay gx gy) = some p) ∧
      (∀ (a0 : Agent) (ax ay gx gy : Int), ∃ o, main a0 ax ay gx gy = some o) := by
  have hlay : ∀ ax ay gx gy : Int, Rect (Environment.init ax ay gx gy).grid 7 10 ∧
      (readCell (Environment.init ax ay gx gy).grid (Environment.init ax ay gx gy).agentX
        (Environment.init ax ay gx gy).agentY).isSome = true := by
    intro ax ay gx gy
    rw [init_eq]
    exact ⟨by decide, by decide⟩
  refine ⟨?_, ?_, ?_⟩
  · obtain ⟨c0, hc0⟩ := rect_readCell hr hin.1 hin.2.1 hin.2.2.1 hin.2.2.2
    obtain ⟨env1, ht⟩ := tick_defined hr hc0 a
    have hr1 := tick_rect ht hr
    have hsome := (tick_agent_cell ht).1 (by rw [hc0]; rfl)
    obtain ⟨c1, hc1⟩ := Option.isSome_iff_exists.1 hsome
    refine ⟨env1, ht, hr1, readCell_inBounds hr1 hc1, ?_⟩
    intro hor
    rcases (tick_cases ht).2 with h0 | ⟨x, y, _, _, hu⟩
    · subst h0
      rcases hor with hm | hw
      · exact absurd ⟨rfl, rfl⟩ hm
      · exact hw
    rcases updateAgentPosition_cases hu with ⟨_, h1⟩ | ⟨_, g1, g2, hg1, hg2, h1⟩
    · subst h1
      rcases hor with hm | hw
      · exact absurd ⟨rfl, rfl⟩ hm
      · exact hw
    · subst h1
      show readCell g2 x y ≠ some '#'
      rw [readCell_writeCell hg2]
      simp
  · intro n b ax ay gx gy
    exact iterTick_defined n b _ (hlay ax ay gx gy).1 (hlay ax ay gx gy).2
  · intro a0 ax ay gx gy
    unfold main runFrom
    exact runLoop_defined maxSteps 0 a0 _ (hlay ax ay gx gy).1 (hlay ax ay gx gy).2

/-- Witness of C19, amended: the first tick on the fixed layout, 7 rows by 10 columns,
the agent at `(1, 1)`. -/
theorem tick_in_bounds_witness :
    Rect world0.grid 7 10 ∧
      (0 ≤ world0.agentX ∧ world0.agentX < (7 : Nat) ∧
        0 ≤ world0.agentY ∧ world0.agentY < (10 : Nat)) ∧
      ∃ env1, tick zeroAgent world0 = some (decide (perceive zeroAgent world0), env1) ∧
        Rect env1.grid 7 10 ∧
        (0 ≤ env1.agentX ∧ env1.agentX < (7 : Nat) ∧
          0 ≤ env1.agentY ∧ env1.agentY < (10 : Nat)) ∧
        ((¬ (env1.agentX = world0.agentX ∧ env1.agentY = world0.agentY) ∨
            readCell world0.grid world0.agentX world0.agentY ≠ some '#') →
          readCell env1.grid env1.agentX env1.agentY ≠ some '#') :=
  ⟨by decide, by decide,
    (tick_in_bounds world0 7 10 zeroAgent (by decide) (by decide)).1⟩

/-! ## The run on the fixed layout, tick by tick -/

/-- The world after one tick or more does not depend on the agent the run starts
with. -/
theorem iterTick_indep (n : Nat) (a b : Agent) (env : Environment) :
    iterTick (n + 1) a env = iterTick (n + 1) b env := by
  unfold iterTick
  rw [tick_indep a b env]

/-- Ticks after the first `k` ticks continue from the state reached by them. -/
theorem iterTick_add (k : Nat) :
    ∀ (m : Nat) (a a1 : Agent) (env env1 : Environment),
      iterTick k a env = some (a1, env1) → iterTick (m + k) a env = iterTick m a1 env1 := by
  induction k with
  | zero =>
    intro m a a1 env env1 h
    simp only [iterTick, Option.some.injEq, Prod.mk.injEq] at h
    rw [h.1, h.2]
    rfl
  | succ j ih =>
    intro m a a1 env env1 h
    unfold iterTick at h
    split at h
    · cases h
    · rename_i a2 e2 ht
      show iterTick (m + j + 1) a env = _
      rw [iterTick_succ ht]
      exact ih m a2 a1 e2 env1 h

/-- C1, amended: from the fixed layout (agent at `(1, 1)`, goal at `(4, 8)`), for every
initial agent whose fields do not satisfy `hasReachedGoal` and whatever the
coordinate fields held before the constructor's scan, the driver loop returns
after exactly 100 ticks with the agent stalled at `(4, 1)` beside the wall at
`(4, 2)`, not on the goal: `hasReachedGoal` is false at exit and the outcome is
`Agent could not reach the goal.`  Tick by tick: the agent is at `(2, 1)` after the
first tick, at `(3, 1)` after the second and at `(4, 1)` after the third, which
already gives the world of the exit; a tick on that world returns it unchanged,
and after any number of ticks from three on the world is that same world, the
agent off the goal. -/
theorem main_stalls_at_step_limit (a0 : Agent) (ax ay gx gy : Int)
    (h0 : hasReachedGoal a0 = false) :
    main a0 ax ay gx gy = some stalledOutcome ∧ stalledOutcome.steps = 100 ∧
      hasReachedGoal stalledOutcome.agent = false ∧
      (stalledOutcome.env.agentX, stalledOutcome.env.agentY) = (4, 1) ∧
      (stalledOutcome.env.goalX, stalledOutcome.env.goalY) = (4, 8) ∧
      readCell stalledOutcome.env.grid 4 1 = some 'A' ∧
      readCell stalledOutcome.env.grid 4 2 = some '#' ∧
      finalMessage stalledOutcome = "Agent could not reach the goal." ∧
      (iterTick 1 a0 (Environment.init ax ay gx gy)).map
          (fun p => (p.2.agentX, p.2.agentY)) = some (2, 1) ∧
      (iterTick 2 a0 (Environment.init ax ay gx gy)).map
          (fun p => (p.2.agentX, p.2.agentY)) = some (3, 1) ∧
      (iterTick 3 a0 (Environment.init ax ay gx gy)).map
          (fun p => (p.2.agentX, p.2.agentY)) = some (4, 1) ∧
      (∀ b, tick b stalledOutcome.env =
        some (decide (perceive b stalledOutcome.env), stalledOutcome.env)) ∧
      (∀ n, 3 ≤ n →
        (iterTick n a0 (Environment.init ax ay gx gy)).map (fun p => p.2) =
          some stalledOutcome.env) ∧
      onGoal stalledOutcome.env = false := by
  have hf : hasReachedGoal freshAgent = false := by decide
  have hrun : main a0 ax ay gx gy = main freshAgent 0 0 0 0 := by
    unfold main runFrom maxSteps
    rw [init_eq, init_eq]
    exact runLoop_indep _ _ _ _ _ h0 hf
  have h3 : iterTick 3 zeroAgent
      { grid := layout, agentX := 1, agentY := 1, goalX := 4, goalY := 8 } =
      some (⟨3, 1, 4, 8, 4, 1⟩, stalledOutcome.env) := by decide
  have hstall : tick zeroAgent stalledOutcome.env =
      some (decide (perceive zeroAgent stalledOutcome.env), stalledOutcome.env) := by decide
  have hall := tick_fixed_all hstall
  rw [hrun, init_eq, iterTick_indep 0 a0 zeroAgent, iterTick_indep 1 a0 zeroAgent,
    iterTick_indep 2 a0 zeroAgent]
  have hexit : main freshAgent 0 0 0 0 = some stalledOutcome := by decide
  have hmsg : finalMessage stalledOutcome = "Agent could not reach the goal." := by decide
  have hcells : readCell stalledOutcome.env.grid 4 1 = some 'A' ∧
      readCell stalledOutcome.env.grid 4 2 = some '#' := by decide
  have hoff : onGoal stalledOutcome.env = false := by decide
  refine ⟨hexit, rfl, rfl, rfl, rfl, hcells.1, hcells.2, hmsg, ?_, ?_, ?_, hall, ?_, hoff⟩
  · decide
  · decide
  · decide
  intro n hn
  obtain ⟨m, rfl⟩ : ∃ m, n = m + 3 := ⟨n - 3, by omega⟩
  rw [iterTick_indep (m + 2) a0 zeroAgent, iterTick_add 3 m _ _ _ _ h3]
  obtain ⟨a1, h1⟩ := iterTick_fixed hall m ⟨3, 1, 4, 8, 4, 1⟩
  rw [h1]
  rfl

/-- Witness of C1, amended, at an initial agent with perceived position `(0, 0)` and
perceived goal `(1, 1)`. -/
theorem main_stalls_at_step_limit_witness :
    hasReachedGoal freshAgent = false ∧
      main freshAgent 7 7 7 7 = some stalledOutcome ∧ stalledOutcome.steps = 100 ∧
      hasReachedGoal stalledOutcome.agent = false ∧
      (stalledOutcome.env.agentX, stalledOutcome.env.agentY) = (4, 1) ∧
      (stalledOutcome.env.goalX, stalledOutcome.env.goalY) = (4, 8) ∧
      readCell stalledOutcome.env.grid 4 1 = some 'A' ∧
      readCell stalledOutcome.env.grid 4 2 = some '#' ∧
      finalMessage stalledOutcome = "Agent could not reach the goal." ∧
      (iterTick 1 freshAgent (Environment.init 7 7 7 7)).map
          (fun p => (p.2.agentX, p.2.agentY)) = some (2, 1) ∧
      (iterTick 2 freshAgent (Environment.init 7 7 7 7)).map
          (fun p => (p.2.agentX, p.2.agentY)) = some (3, 1) ∧
      (iterTick 3 freshAgent (Environment.init 7 7 7 7)).map
          (fun p => (p.2.agentX, p.2.agentY)) = some (4, 1) ∧
      (∀ b, tick b stalledOutcome.env =
        some (decide (perceive b stalledOutcome.env), stalledOutcome.env)) ∧
      (∀ n, 3 ≤ n →
        (iterTick n freshAgent (Environment.init 7 7 7 7)).map (fun p => p.2) =
          some stalledOutcome.env) ∧
      onGoal stalledOutcome.env = false :=
  ⟨by decide, main_stalls_at_step_limit freshAgent 7 7 7 7 (by decide)⟩

end CityVoice
